import Mathlib

/-!
# Sony NEWS keyboard (high-level emulation): FIFO and interrupt line

Shallow embedding of `src/mame/machine/news_kbd.cpp`
(`news_hle_kbd_device`): the scan-code FIFO, the edge-triggered interrupt
output and the host data register.

Machine integers are `Nat`; a conversion to `u8` is an explicit `% 256`.
The interrupt callback `m_irq_out_cb` is embedded as the list of the values
it has been invoked with, oldest first.
-/

namespace NewsKbd

/-! ## Definitions -/

/-- Conversion of a C++ integer value to `u8`. -/
def u8 (n : Nat) : Nat := n % 256

/-- Modelled from the spec: the overflow policy of the Queue. The type of
`m_fifo` is declared outside `news_kbd.cpp`; the spec names three policies
for an enqueue at capacity (drop newest, drop oldest, grow) and leaves the
choice open, so the policy is a parameter of the model. -/
inductive OverflowPolicy
  | dropNewest
  | dropOldest
  | grow
  deriving DecidableEq, Repr

/-- Modelled from the spec: the fixed, implementation-defined capacity of the
Queue and its overflow policy, both declared outside `news_kbd.cpp`. -/
structure FifoConfig where
  capacity : Nat
  policy : OverflowPolicy
  deriving DecidableEq, Repr

/-- Modelled from the spec: `m_fifo.clear()`, the Queue emptied. A Queue is
the list of its undelivered codes, oldest first. -/
def fifo.clear (_q : List Nat) : List Nat := []

/-- Modelled from the spec: `m_fifo.empty()`, whether no code is queued. -/
def fifo.empty (q : List Nat) : Bool := q.isEmpty

/-- Modelled from the spec: `m_fifo.enqueue(v)`. Below capacity the code is
appended at the tail; at capacity the overflow policy decides: the new code is
dropped, or the oldest code is dropped to make room, or the Queue grows. Only
the queued codes are modelled: whether the Queue also records a lost code is
left open, as it is in the spec. -/
def fifo.enqueue (cfg : FifoConfig) (q : List Nat) (v : Nat) : List Nat :=
  if q.length < cfg.capacity then q ++ [v]
  else
    match cfg.policy with
    | OverflowPolicy.dropNewest => q
    | OverflowPolicy.dropOldest => (q ++ [v]).drop 1
    | OverflowPolicy.grow => q ++ [v]

/-- Modelled from the spec: `m_fifo.dequeue()`, the oldest code and the Queue
without it. `data_r` only calls it on a non-empty Queue; on an empty one the
model yields 0 and the empty Queue. -/
def fifo.dequeue (q : List Nat) : Nat × List Nat := (q.headD 0, q.tail)

/-- State of `news_hle_kbd_device`. `m_irq_out_cb` is the trace of the
interrupt callback: every value it was invoked with, oldest first. The last
three fields belong to the matrix keyboard base class. -/
structure news_hle_kbd_device where
  m_fifo : List Nat
  m_irq_out_state : Bool
  m_irq_out_cb : List Bool
  m_key_states : List Nat
  m_processing : Bool
  m_scan_hz : Nat
  deriving DecidableEq, Repr

/-- Modelled from the spec: `reset_key_state()` of the matrix keyboard base
class (outside `news_kbd.cpp`). The spec only says that a reset clears the
in-flight state; going by the name, the recorded state of the eight matrix
rows is cleared. It touches neither the FIFO nor the interrupt line. -/
def reset_key_state (s : news_hle_kbd_device) : news_hle_kbd_device :=
  { s with m_key_states := List.replicate 8 0 }

/-- Modelled from the spec: `start_processing(attotime::from_hz(hz))` of the
matrix keyboard base class (outside `news_kbd.cpp`): periodic scanning of the
key matrix is (re)started at the given rate. -/
def start_processing (s : news_hle_kbd_device) (hz : Nat) : news_hle_kbd_device :=
  { s with m_processing := true, m_scan_hz := hz }

/-- Method `news_hle_kbd_device::out_irq`: the callback is invoked only when the
state changes. -/
def out_irq (s : news_hle_kbd_device) (state : Bool) : news_hle_kbd_device :=
  if s.m_irq_out_state != state then
    { s with m_irq_out_state := state, m_irq_out_cb := s.m_irq_out_cb ++ [state] }
  else s

/-- Method `news_hle_kbd_device::device_reset`: the FIFO is cleared, the
interrupt deasserted, the key state reset and scanning started at 1200 Hz. -/
def device_reset (s : news_hle_kbd_device) : news_hle_kbd_device :=
  let s1 := { s with m_fifo := fifo.clear s.m_fifo }
  let s2 := out_irq s1 false
  let s3 := reset_key_state s2
  start_processing s3 1200

/-- Method `news_hle_kbd_device::push_key`; the argument is already a `u8`. -/
def push_key (cfg : FifoConfig) (s : news_hle_kbd_device) (code : Nat) :
    news_hle_kbd_device :=
  let s1 := { s with m_fifo := fifo.enqueue cfg s.m_fifo code }
  out_irq s1 true

/-- Method `news_hle_kbd_device::key_make`: `push_key((row << 4) | column)` with
`u8` parameters and the `int` result converted to `u8`. -/
def key_make (cfg : FifoConfig) (s : news_hle_kbd_device) (row column : Nat) :
    news_hle_kbd_device :=
  push_key cfg s (u8 ((u8 row <<< 4) ||| u8 column))

/-- Method `news_hle_kbd_device::key_break`:
`push_key(0x80 | (row << 4) | column)`. -/
def key_break (cfg : FifoConfig) (s : news_hle_kbd_device) (row column : Nat) :
    news_hle_kbd_device :=
  push_key cfg s (u8 (0x80 ||| (u8 row <<< 4) ||| u8 column))

/-- Method `news_hle_kbd_device::data_r`: the byte returned and the state after. -/
def data_r (s : news_hle_kbd_device) : Nat × news_hle_kbd_device :=
  if fifo.empty s.m_fifo then (0, s)
  else
    let r := fifo.dequeue s.m_fifo
    let s1 := { s with m_fifo := r.2 }
    let s2 := if fifo.empty s1.m_fifo then out_irq s1 false else s1
    (r.1, s2)

/-- A call made on the device, by the key-matrix scanner, the host or the
framework. -/
inductive KbdOp
  | key_make (row column : Nat)
  | key_break (row column : Nat)
  | data_r
  | device_reset
  deriving DecidableEq, Repr

/-- The state after one call. -/
def KbdOp.apply (cfg : FifoConfig) (s : news_hle_kbd_device) : KbdOp → news_hle_kbd_device
  | KbdOp.key_make row column => NewsKbd.key_make cfg s row column
  | KbdOp.key_break row column => NewsKbd.key_break cfg s row column
  | KbdOp.data_r => (NewsKbd.data_r s).2
  | KbdOp.device_reset => NewsKbd.device_reset s

/-- The state after a sequence of calls, applied left to right. -/
def run (cfg : FifoConfig) (s : news_hle_kbd_device) : List KbdOp → news_hle_kbd_device
  | [] => s
  | op :: ops => run cfg (op.apply cfg s) ops

/-- The code a call hands to `push_key`, if it is a key event. -/
def KbdOp.code : KbdOp → Option Nat
  | KbdOp.key_make row column => some (u8 ((u8 row <<< 4) ||| u8 column))
  | KbdOp.key_break row column => some (u8 (0x80 ||| (u8 row <<< 4) ||| u8 column))
  | KbdOp.data_r => none
  | KbdOp.device_reset => none

/-- The codes pushed by a sequence of calls, in push order. -/
def pushed : List KbdOp → List Nat
  | [] => []
  | op :: ops =>
    match op.code with
    | some c => c :: pushed ops
    | none => pushed ops

/-- The bytes returned by the `data_r` calls of a sequence that found the
FIFO non-empty, in call order. -/
def returned (cfg : FifoConfig) (s : news_hle_kbd_device) : List KbdOp → List Nat
  | [] => []
  | KbdOp.data_r :: ops =>
    if fifo.empty s.m_fifo then returned cfg (KbdOp.data_r.apply cfg s) ops
    else (NewsKbd.data_r s).1 :: returned cfg (KbdOp.data_r.apply cfg s) ops
  | op :: ops => returned cfg (op.apply cfg s) ops

/-- Whether every key event of the sequence finds the FIFO below capacity. -/
def pushesBelowCapacity (cfg : FifoConfig) (s : news_hle_kbd_device) : List KbdOp → Bool
  | [] => true
  | op :: ops =>
    (op.code.isNone || decide (s.m_fifo.length < cfg.capacity))
      && pushesBelowCapacity cfg (op.apply cfg s) ops

/-- Whether a call is one of `key_make`, `key_break`, `data_r`. -/
def KbdOp.isKeyOrRead : KbdOp → Bool
  | KbdOp.device_reset => false
  | _ => true

/-- The interrupt invariant: the output state is true exactly when a code is
queued. -/
def IrqInv (s : news_hle_kbd_device) : Prop :=
  s.m_irq_out_state = true ↔ s.m_fifo ≠ []

/-- The byte `key_make` (flag false) or `key_break` (flag true) hands to
`push_key` for a row and a column. -/
def event_code (brk : Bool) (row column : Nat) : Nat :=
  if brk then u8 (0x80 ||| (u8 row <<< 4) ||| u8 column)
  else u8 ((u8 row <<< 4) ||| u8 column)

/-- The values delivered to the interrupt callback during a run: what the run
adds to the callback trace. -/
def delivered (cfg : FifoConfig) (s : news_hle_kbd_device) (ops : List KbdOp) : List Bool :=
  (run cfg s ops).m_irq_out_cb.drop s.m_irq_out_cb.length

/-- One call seen from the interrupt line: either the output state and the
callback trace are kept, or the output state changes and its new value is the
one notification added. -/
def IrqEdge (s t : news_hle_kbd_device) : Prop :=
  (t.m_irq_out_state = s.m_irq_out_state ∧ t.m_irq_out_cb = s.m_irq_out_cb)
    ∨ (t.m_irq_out_state ≠ s.m_irq_out_state
      ∧ t.m_irq_out_cb = s.m_irq_out_cb ++ [t.m_irq_out_state])

/-- The callback trace extends `base` by an alternating list of values whose
last one, if any, is the current output state. -/
def TraceInv (base : List Bool) (s : news_hle_kbd_device) : Prop :=
  ∃ d : List Bool, s.m_irq_out_cb = base ++ d ∧ List.Chain' (fun x y => x ≠ y) d
    ∧ ∀ v ∈ d.getLast?, v = s.m_irq_out_state

/-- Modelled from the spec: the period, in seconds, of the periodic key-matrix
scan that `start_processing(attotime::from_hz(hz))` sets up; `attotime` is
declared outside `news_kbd.cpp`, the spec gives the polling rate in Hz. -/
def scan_period (s : news_hle_kbd_device) : ℚ := 1 / (s.m_scan_hz : ℚ)

/-- The input matrix of the file (`INPUT_PORTS_START(news_hle_kbd_device)`):
for each of `ROW0` .. `ROW7` the mask of the port bits declared
`IPT_KEYBOARD`; every other bit of the sixteen is declared `IPT_UNUSED`. -/
def keyboard_rows : List Nat :=
  [0xFFFE, 0xFFFF, 0xFFFF, 0xFFFF, 0xFFFD, 0xFFFF, 0x00FF, 0x0000]

/-- Whether the matrix position (row, column) carries a defined key. The
column of a key is the index of its bit in the port of its row (the matrix
scanner that turns port bits into `key_make`/`key_break` calls is outside
`news_kbd.cpp`). -/
def key_defined (row column : Nat) : Bool :=
  decide (column < 16) && (keyboard_rows.getD row 0).testBit column

/-- Whether a call is an event of a defined key (reads and resets are not key
events and pass). -/
def KbdOp.fromDefinedKey : KbdOp → Bool
  | KbdOp.key_make row column => key_defined row column
  | KbdOp.key_break row column => key_defined row column
  | _ => true

/-- No queued code is the sentinel 0. -/
def NonzeroCodes (s : news_hle_kbd_device) : Prop := ∀ c ∈ s.m_fifo, c ≠ 0

end NewsKbd

/-! # Adaptec AHA-1542C SCSI controller: port handlers

Shallow embedding of `src/devices/bus/isa/aha1542c.cpp`: the register bit
masks, the two port handlers and the port range `device_start` installs.
-/

namespace Aha1542c

/-- STATUS flag: self-test in progress. -/
def STAT_STST : Nat := 0x80
/-- STATUS flag: internal diagnostic failure. -/
def STAT_DIAGF : Nat := 0x40
/-- STATUS flag: mailbox initialization required. -/
def STAT_INIT : Nat := 0x20
/-- STATUS flag: HBA is idle. -/
def STAT_IDLE : Nat := 0x10
/-- STATUS flag: Command/Data output port is full. -/
def STAT_CDFULL : Nat := 0x08
/-- STATUS flag: Data input port is full. -/
def STAT_DFULL : Nat := 0x04
/-- STATUS flag: Invalid command. -/
def STAT_INVCMD : Nat := 0x01

/-- INTERRUPT STATUS flag: any interrupt. -/
def INTR_ANY : Nat := 0x80
/-- INTERRUPT STATUS flag: SCSI reset detected. -/
def INTR_SRCD : Nat := 0x08
/-- INTERRUPT STATUS flag: HA command complete. -/
def INTR_HACC : Nat := 0x04
/-- INTERRUPT STATUS flag: MBO empty. -/
def INTR_MBOA : Nat := 0x02
/-- INTERRUPT STATUS flag: MBI full. -/
def INTR_MBIF : Nat := 0x01

/-- CONTROL command: Hard reset. -/
def CTRL_HRST : Nat := 0x80
/-- CONTROL command: Soft reset. -/
def CTRL_SRST : Nat := 0x40
/-- CONTROL command: interrupt reset. -/
def CTRL_IRST : Nat := 0x20
/-- CONTROL command: SCSI bus reset. -/
def CTRL_SCRST : Nat := 0x10

/-- The command codes the file defines (`CMD_NOP` .. `CMD_MBENABLE`). -/
def command_codes : List Nat :=
  [0x00, 0x01, 0x02, 0x03, 0x04, 0x05, 0x06, 0x07, 0x08, 0x09, 0x0a, 0x0b, 0x0c, 0x0d,
    0x1f, 0x23, 0x28, 0x29]

/-- The STATUS bits by meaning. -/
structure StatusBits where
  self_test : Nat
  diagnostic_failure : Nat
  init_required : Nat
  idle : Nat
  output_full : Nat
  input_full : Nat
  invalid_command : Nat
  deriving DecidableEq, Repr

/-- The INTERRUPT-STATUS bits by meaning. -/
structure InterruptBits where
  any : Nat
  bus_reset : Nat
  command_complete : Nat
  mailbox_out_empty : Nat
  mailbox_in_full : Nat
  deriving DecidableEq, Repr

/-- The CONTROL bits by meaning. -/
structure ControlBits where
  hard_reset : Nat
  soft_reset : Nat
  interrupt_reset : Nat
  bus_reset : Nat
  deriving DecidableEq, Repr

/-- The STATUS masks of the code, each under the meaning its comment gives. -/
def code_status_bits : StatusBits :=
  ⟨STAT_STST, STAT_DIAGF, STAT_INIT, STAT_IDLE, STAT_CDFULL, STAT_DFULL, STAT_INVCMD⟩

/-- The INTERRUPT STATUS masks of the code, each under the meaning its comment
gives. -/
def code_interrupt_bits : InterruptBits :=
  ⟨INTR_ANY, INTR_SRCD, INTR_HACC, INTR_MBOA, INTR_MBIF⟩

/-- The CONTROL masks of the code, each under the meaning its comment gives. -/
def code_control_bits : ControlBits :=
  ⟨CTRL_HRST, CTRL_SRST, CTRL_IRST, CTRL_SCRST⟩

/-- The documented STATUS bits: 0x80 self-test, 0x40 diagnostic failure, 0x20
init required, 0x10 idle, 0x08 output-full, 0x04 input-full, 0x01 invalid
command. -/
def spec_status_bits : StatusBits := ⟨0x80, 0x40, 0x20, 0x10, 0x08, 0x04, 0x01⟩

/-- The documented INTERRUPT-STATUS bits: 0x80 any, 0x08 bus-reset, 0x04
command-complete, 0x02 mailbox-out-empty, 0x01 mailbox-in-full. -/
def spec_interrupt_bits : InterruptBits := ⟨0x80, 0x08, 0x04, 0x02, 0x01⟩

/-- The documented CONTROL bits: 0x80 hard reset, 0x40 soft reset, 0x20
interrupt reset, 0x10 bus reset. -/
def spec_control_bits : ControlBits := ⟨0x80, 0x40, 0x20, 0x10⟩

/-- A line written by `logerror`: the handler and its arguments. -/
inductive LogLine
  | read (offset : Nat)
  | write (offset data : Nat)
  deriving DecidableEq, Repr

/-- State of `aha1542c_device`. The class members are declared outside
`aha1542c.cpp` and no method of the file reads or writes one: `members` holds
them uninterpreted. `log` is the diagnostic output of `logerror`, oldest line
first; it is not device state. -/
structure aha1542c_device where
  members : List Nat
  log : List LogLine
  deriving DecidableEq, Repr

/-- Handler `aha1542c_device::aha1542_r`: logs the access and returns 0xff. -/
def aha1542_r (s : aha1542c_device) (offset : Nat) : Nat × aha1542c_device :=
  (0xff, { s with log := s.log ++ [LogLine.read offset] })

/-- Handler `aha1542c_device::aha1542_w`: logs the access. -/
def aha1542_w (s : aha1542c_device) (offset data : Nat) : aha1542c_device :=
  { s with log := s.log ++ [LogLine.write offset data] }

/-- Method `aha1542c_device::device_reset`: the body is empty. -/
def device_reset (s : aha1542c_device) : aha1542c_device := s

/-- An access of the host to the adapter, or a reset. -/
inductive AhaOp
  | read (offset : Nat)
  | write (offset data : Nat)
  | reset
  deriving DecidableEq, Repr

/-- The state after one access. -/
def AhaOp.apply (s : aha1542c_device) : AhaOp → aha1542c_device
  | AhaOp.read offset => (aha1542_r s offset).2
  | AhaOp.write offset data => aha1542_w s offset data
  | AhaOp.reset => device_reset s

/-- The state after a history of accesses, applied left to right. -/
def runOps (s : aha1542c_device) : List AhaOp → aha1542c_device
  | [] => s
  | op :: ops => runOps (op.apply s) ops

/-- What `device_start` installs on the ISA bus: the BIOS ROM window and the
port range of the two handlers, first and last address. -/
structure IsaInstall where
  rom_start : Nat
  rom_end : Nat
  port_start : Nat
  port_end : Nat
  deriving DecidableEq, Repr

/-- Method `aha1542c_device::device_start`: `install_rom(0xdc000, 0xdffff)` and
`install_device(0x330, 0x333, aha1542_r, aha1542_w)`. -/
def device_start : IsaInstall := ⟨0xdc000, 0xdffff, 0x330, 0x333⟩

/-- The DIP switch table of the file: switches 2, 3, 4 (true is on) and the
port range they select, none where the table says reserved. -/
def dip_port_range : Bool → Bool → Bool → Option (Nat × Nat)
  | false, false, false => some (0x330, 0x333)
  | true, false, false => some (0x334, 0x337)
  | false, true, false => some (0x230, 0x233)
  | true, true, false => some (0x234, 0x237)
  | false, false, true => some (0x130, 0x133)
  | true, false, true => some (0x134, 0x137)
  | false, true, true => none
  | true, true, true => none

/-- The register read at a port offset, from the port comment of the file. -/
def read_port_name : Nat → String
  | 0 => "STATUS"
  | 1 => "DATA"
  | 2 => "INTERRUPT STATUS"
  | _ => "(undefined)"

/-- The register written at a port offset, from the port comment of the
file. -/
def write_port_name : Nat → String
  | 0 => "CONTROL"
  | 1 => "COMMAND"
  | 2 => "(undefined?)"
  | _ => "(undefined)"

/-- Modelled from the spec: the offset the bus hands to a handler for a port
address of an installed range (`install_device` is declared outside
`aha1542c.cpp`): the register map is byte-addressed, relative to the
configured base. -/
def handler_offset (base address : Nat) : Nat := address - base

/-- An entry of an address map: first and last address, and what is mapped. -/
structure MapEntry where
  first : Nat
  last : Nat
  kind : String
  deriving DecidableEq, Repr

/-- The number of bytes of an address range, both ends included. -/
def MapEntry.bytes (e : MapEntry) : Nat := e.last + 1 - e.first

/-- Method `aha1542c_device::z84c0010_mem`: the address map of the on-board
Z80, in the order of the file. The third entry carries the comment
"2kb RAM chip". -/
def z84c0010_mem : List MapEntry :=
  [⟨0x0000, 0x7fff, "rom"⟩, ⟨0x8000, 0x800f, "noprw"⟩, ⟨0x9000, 0xafff, "ram"⟩,
    ⟨0xe000, 0xe0ff, "ram"⟩, ⟨0xb000, 0xb000, "noprw"⟩]

/-- The RAM entry at 0x9000 of the Z80 map. -/
def z80_ram_entry : MapEntry := z84c0010_mem.getD 2 ⟨0, 0, ""⟩

/-- Whether an address lies in the range of a map entry. -/
def MapEntry.covers (e : MapEntry) (address : Nat) : Bool :=
  decide (e.first ≤ address) && decide (address ≤ e.last)

end Aha1542c

/-! # Run and Gun: system registers, palette RAM, ROM readback, sound banking

Shallow embedding of the handlers of `src/mame/drivers/rungun.cpp`. Calls
into other devices are recorded, in order, in the `effects` trace of the
state; the values of input ports and the frame counter are arguments.
-/

namespace Rungun

/-- Conversion of a C++ integer value to `uint8_t`. -/
def to_u8 (n : Nat) : Nat := n % 256

/-- Conversion of a C++ integer value to `uint16_t`. -/
def to_u16 (n : Nat) : Nat := n % 65536

/-- Conversion of a C++ integer value to `uint32_t`. -/
def to_u32 (n : Nat) : Nat := n % 4294967296

/-- Modelled from the spec: the framework macro `COMBINE_DATA` (defined
outside the files of the repository at hand; the spec leaves the host
framework out of scope): the 16-bit word with the bits selected by `mem_mask`
taken from `data` and the other bits kept, `(old & ~mem_mask) | (data &
mem_mask)`. -/
def COMBINE_DATA (old data mem_mask : Nat) : Nat :=
  (old &&& (0xffff ^^^ mem_mask)) ||| (data &&& mem_mask)

/-- Modelled from the spec: the framework macro `ACCESSING_BITS_0_7` (defined
outside the files at hand): the access touches the low byte. -/
def ACCESSING_BITS_0_7 (mem_mask : Nat) : Bool := (mem_mask &&& 0x00ff) != 0

/-- Modelled from the spec: the framework macro `ACCESSING_BITS_8_15` (defined
outside the files at hand): the access touches the high byte. -/
def ACCESSING_BITS_8_15 (mem_mask : Nat) : Bool := (mem_mask &&& 0xff00) != 0

/-- A call of a handler into another device, with its arguments. Colour
components are the arguments of `pal5bit`; a line is true for `ASSERT_LINE`
and false for `CLEAR_LINE`. -/
inductive Effect
  | set_pen_color (palette pen r g b : Nat)
  | spriteram_bank_set_entry (entry : Nat)
  | eepromout_write (data mask : Nat)
  | coin_counter_w (counter value : Nat)
  | maincpu_irq5_line (asserted : Bool)
  | objcha_line (asserted : Bool)
  | bank2_set_entry (entry : Nat)
  | soundcpu_nmi_line (asserted : Bool)
  | soundcpu_irq_hold
  deriving DecidableEq, Repr

/-- The members of `rungun_state` the handlers use (declared outside
`rungun.cpp`), and the trace of calls into other devices. `m_sysreg` is the
shared region of 0x20 bytes, `m_pal_ram` the array `machine_start` allocates.
The line state `m_sound_nmi_clk` is kept as passed. -/
structure rungun_state where
  m_sysreg : List Nat
  m_pal_ram : List Nat
  m_video_mux_bank : Nat
  m_single_screen_mode : Bool
  m_video_priority_mode : Bool
  m_roz_rombase : Nat
  m_sound_ctrl : Nat
  m_sound_status : Nat
  m_sound_nmi_clk : Nat
  effects : List Effect
  deriving DecidableEq, Repr

/-- The values read from the input ports. -/
structure Ports where
  P1 : Nat
  P2 : Nat
  P3 : Nat
  P4 : Nat
  SYSTEM : Nat
  DSW : Nat
  deriving DecidableEq, Repr

/-- The number of words `machine_start` allocates for `m_pal_ram`:
`make_unique_clear<uint16_t[]>(0x800*2)`. -/
def pal_ram_words : Nat := 0x800 * 2

/-- The size of the region `gfx1` (`ROM_REGION( 0x400000, "gfx1", 0)`), which
`machine_start` makes `m_roz_rom`. -/
def gfx1_region_size : Nat := 0x400000

/-- The size of the region `soundcpu` (`ROM_REGION( 0x030000, "soundcpu", 0 )`). -/
def soundcpu_region_size : Nat := 0x030000

/-- The number of entries `machine_start` configures for `bank2`:
`configure_entries(0, 8, &ROM[0x10000], 0x4000)`. -/
def bank2_entry_count : Nat := 8

/-- The offset in the region `soundcpu` at which entry `n` of `bank2`
starts: `&ROM[0x10000]` plus `n` strides of 0x4000. -/
def bank2_entry_base (n : Nat) : Nat := 0x10000 + n * 0x4000

/-- The number of bytes of the window of `bank2` in the sound map:
`map(0x8000, 0xbfff).bankr("bank2")`. -/
def bank2_window_bytes : Nat := 0xbfff + 1 - 0x8000

/-- The number of offsets the 8-bit handler `k53936_rom_r` sees:
`map(0x400000, 0x43ffff)` with `umask16(0x00ff)`, one byte per word. -/
def roz_window_offsets : Nat := (0x43ffff + 1 - 0x400000) / 2

/-- The number of word offsets of the palette window:
`map(0x300000, 0x3007ff)`. -/
def palette_window_words : Nat := (0x3007ff + 1 - 0x300000) / 2

/-- The field bit of `sysregs_r`, case `0x04/2`: `frame_number() & 1` as a
`uint8_t`, forced to 1 in single-screen mode. -/
def field_bit (s : rungun_state) (frame_number : Nat) : Nat :=
  if s.m_single_screen_mode == true then 1 else to_u8 (frame_number &&& 1)

/-- Handler `rungun_state::sysregs_r`. -/
def sysregs_r (s : rungun_state) (ports : Ports) (frame_number offset mem_mask : Nat) : Nat :=
  if offset = 0x00 / 2 then to_u16 (ports.P1 ||| (ports.P3 <<< 8))
  else if offset = 0x02 / 2 then to_u16 (ports.P2 ||| (ports.P4 <<< 8))
  else if offset = 0x04 / 2 then
    to_u16 ((ports.SYSTEM &&& 0xfdff) ||| (field_bit s frame_number <<< 9))
  else if offset = 0x06 / 2 then
    let data := if ACCESSING_BITS_0_7 mem_mask then to_u16 ports.DSW else 0
    to_u16 ((s.m_sysreg.getD (0x06 / 2) 0 &&& 0xff00) ||| data)
  else s.m_sysreg.getD offset 0

/-- Handler `rungun_state::sysregs_w`; `data` and `mem_mask` are 16-bit. -/
def sysregs_w (s : rungun_state) (offset data mem_mask : Nat) : rungun_state :=
  let s0 := { s with
    m_sysreg := s.m_sysreg.set offset (COMBINE_DATA (s.m_sysreg.getD offset 0) data mem_mask) }
  if offset = 0x08 / 2 then
    let s1 :=
      if ACCESSING_BITS_0_7 mem_mask then
        { s0 with
          m_video_mux_bank := ((data &&& 0x80) >>> 7) ^^^ 1
          effects := s0.effects ++
            [Effect.spriteram_bank_set_entry ((data &&& 0x80) >>> 7),
              Effect.eepromout_write data 0xff,
              Effect.coin_counter_w 0 (data &&& 0x08),
              Effect.coin_counter_w 1 (data &&& 0x10)] }
      else s0
    if ACCESSING_BITS_8_15 mem_mask then
      { s1 with
        m_single_screen_mode := (data &&& 0x1000) == 0x1000
        m_video_priority_mode := (data &&& 0x4000) == 0x4000
        effects :=
          if (data &&& 0x400) == 0 then s1.effects ++ [Effect.maincpu_irq5_line false]
          else s1.effects }
    else s1
  else if offset = 0x0c / 2 then
    { s0 with
      m_roz_rombase := (data &&& 0xf0) >>> 4
      effects := s0.effects ++ [Effect.objcha_line ((data &&& 0x04) != 0)] }
  else s0

/-- The ROM address `k53936_rom_r` computes, a `uint32_t`. -/
def roz_rom_addr (s : rungun_state) (offset : Nat) : Nat :=
  to_u32 (offset + s.m_roz_rombase * 0x20000)

/-- Handler `rungun_state::k53936_rom_r` on the contents `rom` of the region
`gfx1`: the byte read, none when the address is outside the region. -/
def k53936_rom_r (s : rungun_state) (rom : Nat → Nat) (offset : Nat) : Option Nat :=
  if roz_rom_addr s offset < gfx1_region_size then some (rom (roz_rom_addr s offset))
  else none

/-- The index in `m_pal_ram` both palette handlers use:
`offset + m_video_mux_bank*0x800/2`. -/
def pal_ram_addr (s : rungun_state) (offset : Nat) : Nat :=
  offset + s.m_video_mux_bank * 0x800 / 2

/-- Handler `rungun_state::palette_read`: none when the index is outside the
array. -/
def palette_read (s : rungun_state) (offset : Nat) : Option Nat :=
  s.m_pal_ram[pal_ram_addr s offset]?

/-- The three `uint8_t` components `palette_write` takes from a palette
word. -/
def pen_components (w : Nat) : Nat × Nat × Nat :=
  (to_u8 (w &&& 0x1f), to_u8 ((w &&& 0x3e0) >>> 5), to_u8 ((w &&& 0x7e00) >>> 10))

/-- Handler `rungun_state::palette_write`; `data` and `mem_mask` are 16-bit.
The pen is set on `m_palette` (0) when the video mux bank is 0, on
`m_palette2` (1) otherwise; none when the index is outside the array. -/
def palette_write (s : rungun_state) (offset data mem_mask : Nat) : Option rungun_state :=
  let cur_paldevice := if s.m_video_mux_bank = 0 then 0 else 1
  let addr := to_u32 (pal_ram_addr s offset)
  match s.m_pal_ram[addr]? with
  | none => none
  | some old =>
    let w := COMBINE_DATA old data mem_mask
    let c := pen_components w
    some { s with
      m_pal_ram := s.m_pal_ram.set addr w
      effects := s.effects ++ [Effect.set_pen_color cur_paldevice offset c.1 c.2.1 c.2.2] }

/-- Handler `rungun_state::sound_status_w`. -/
def sound_status_w (s : rungun_state) (data : Nat) : rungun_state :=
  { s with m_sound_status := data }

/-- Handler `rungun_state::sound_ctrl_w`; `data` is a byte. -/
def sound_ctrl_w (s : rungun_state) (data : Nat) : rungun_state :=
  let e1 := s.effects ++ [Effect.bank2_set_entry (data &&& 0x07)]
  let e2 := if (data &&& 0x10) == 0 then e1 ++ [Effect.soundcpu_nmi_line false] else e1
  { s with effects := e2, m_sound_ctrl := data }

/-- Handler `rungun_state::k054539_nmi_gen`. -/
def k054539_nmi_gen (s : rungun_state) (state : Nat) : rungun_state :=
  let e :=
    if (s.m_sound_ctrl &&& 0x10) != 0 then
      if s.m_sound_nmi_clk == 0 && state != 0 then
        s.effects ++ [Effect.soundcpu_nmi_line true]
      else s.effects
    else s.effects
  { s with effects := e, m_sound_nmi_clk := state }

/-- A write to the system registers. -/
structure SysregWrite where
  offset : Nat
  data : Nat
  mem_mask : Nat
  deriving DecidableEq, Repr

/-- The state after a sequence of system register writes, oldest first. -/
def runWrites (s : rungun_state) : List SysregWrite → rungun_state
  | [] => s
  | w :: ws => runWrites (sysregs_w s w.offset w.data w.mem_mask) ws

/-- The data of the last write of a sequence that was a high-byte write to
sysreg 0x08, if there is one. -/
def lastHighWrite08 : List SysregWrite → Option Nat
  | [] => none
  | w :: ws =>
    match lastHighWrite08 ws with
    | some d => some d
    | none => if w.offset = 0x08 / 2 ∧ ACCESSING_BITS_8_15 w.mem_mask = true then some w.data
      else none

/-- A call on the sound side: the timer line of the K054539 or a write of the
sound control register. -/
inductive SoundOp
  | nmi_gen (state : Nat)
  | ctrl_w (data : Nat)
  deriving DecidableEq, Repr

/-- The state after one sound-side call. -/
def SoundOp.apply (s : rungun_state) : SoundOp → rungun_state
  | SoundOp.nmi_gen state => k054539_nmi_gen s state
  | SoundOp.ctrl_w data => sound_ctrl_w s data

/-- The state after a sequence of sound-side calls, oldest first. -/
def runSound (s : rungun_state) : List SoundOp → rungun_state
  | [] => s
  | op :: ops => runSound (op.apply s) ops

/-- Whether a sound-side call keeps the timer line high: a control write, or
a line call with a non-zero state. -/
def SoundOp.lineHigh : SoundOp → Bool
  | SoundOp.nmi_gen state => state != 0
  | SoundOp.ctrl_w _ => true

/-- The number of times a trace asserts the NMI of the sound CPU. -/
def nmi_asserts (es : List Effect) : Nat :=
  es.count (Effect.soundcpu_nmi_line true)

end Rungun

/-! # Atari Vindicators: input port 260010

Shallow embedding of `vindictr_state::port1_r` of
`src/mame/drivers/vindictr.cpp` and of the declaration of the port it reads.
-/

namespace Vindictr

/-- Handler `vindictr_state::port1_r` on the value read from the input port
"260010": bit 4 is toggled and the `int` is returned as a `uint16_t`. -/
def port1_r (port_260010 : Nat) : Nat := (port_260010 ^^^ 0x0010) % 65536

/-- A `PORT_BIT` (or `PORT_SERVICE`) line of a port declaration: the mask, the
active level and whether the type is `IPT_UNUSED`. -/
structure PortBit where
  mask : Nat
  active_low : Bool
  unused : Bool
  deriving DecidableEq, Repr

/-- The declaration `PORT_START("260010")` of `INPUT_PORTS_START( vindictr )`,
line by line. -/
def port_260010_bits : List PortBit :=
  [⟨0x0001, true, false⟩, ⟨0x0002, true, false⟩, ⟨0x0004, true, false⟩,
    ⟨0x0008, true, false⟩, ⟨0x0010, false, true⟩, ⟨0x00e0, true, true⟩,
    ⟨0x0100, true, false⟩, ⟨0x0200, true, false⟩, ⟨0x0400, true, false⟩,
    ⟨0x0800, true, false⟩, ⟨0x1000, true, false⟩, ⟨0x2000, true, false⟩,
    ⟨0x4000, true, false⟩, ⟨0x8000, true, false⟩]

/-- Modelled from the spec: what the input framework (outside `vindictr.cpp`)
returns for a declared port: a 16-bit value in which every bit declared unused
reads at its inactive level, 0 for active-high and 1 for active-low. -/
def PortReads (bits : List PortBit) (v : Nat) : Prop :=
  v < 65536 ∧ ∀ b ∈ bits, b.unused = true →
    v &&& b.mask = (if b.active_low then b.mask else 0)

end Vindictr

namespace NewsKbd

/-! ## Helper lemmas -/

theorem make_code_eq (row column : Nat) (hr : row < 8) (hc : column < 16) :
    u8 ((u8 row <<< 4) ||| u8 column) = 16 * row + column := by
  interval_cases row <;> interval_cases column <;> rfl

theorem break_code_eq (row column : Nat) (hr : row < 8) (hc : column < 16) :
    u8 (0x80 ||| (u8 row <<< 4) ||| u8 column) = 128 + 16 * row + column := by
  interval_cases row <;> interval_cases column <;> rfl

theorem enqueue_below (cfg : FifoConfig) (q : List Nat) (v : Nat)
    (h : q.length < cfg.capacity) : fifo.enqueue cfg q v = q ++ [v] := by
  simp [fifo.enqueue, h]

theorem out_irq_fifo (s : news_hle_kbd_device) (b : Bool) :
    (out_irq s b).m_fifo = s.m_fifo := by
  unfold out_irq; split <;> rfl

theorem out_irq_state (s : news_hle_kbd_device) (b : Bool) :
    (out_irq s b).m_irq_out_state = b := by
  unfold out_irq
  split
  · rfl
  · rename_i h; simpa using h

theorem push_key_fifo (cfg : FifoConfig) (s : news_hle_kbd_device) (code : Nat) :
    (push_key cfg s code).m_fifo = fifo.enqueue cfg s.m_fifo code := by
  simp [push_key, out_irq_fifo]

theorem push_key_state (cfg : FifoConfig) (s : news_hle_kbd_device) (code : Nat) :
    (push_key cfg s code).m_irq_out_state = true := by
  simp [push_key, out_irq_state]

theorem device_reset_fifo (s : news_hle_kbd_device) : (device_reset s).m_fifo = [] := by
  simp [device_reset, start_processing, reset_key_state, out_irq_fifo, fifo.clear]

theorem device_reset_state (s : news_hle_kbd_device) :
    (device_reset s).m_irq_out_state = false := by
  simp [device_reset, start_processing, reset_key_state, out_irq_state]

theorem data_r_cons (s : news_hle_kbd_device) (c : Nat) (rest : List Nat)
    (h : s.m_fifo = c :: rest) :
    (data_r s).1 = c ∧ (data_r s).2.m_fifo = rest := by
  unfold data_r
  simp only [h, fifo.empty, fifo.dequeue, List.isEmpty_cons, Bool.false_eq_true, if_false,
    List.headD_cons, List.tail_cons]
  refine ⟨trivial, ?_⟩
  split
  · rw [out_irq_fifo]
  · rfl

theorem enqueue_ne_nil (cfg : FifoConfig) (hcap : 0 < cfg.capacity) (q : List Nat) (v : Nat) :
    fifo.enqueue cfg q v ≠ [] := by
  unfold fifo.enqueue
  split
  · simp
  · rename_i hfull
    have hlen : 0 < q.length := by omega
    cases q with
    | nil => simp at hlen
    | cons a t =>
      cases cfg.policy <;> simp

theorem push_key_inv (cfg : FifoConfig) (hcap : 0 < cfg.capacity) (s : news_hle_kbd_device)
    (code : Nat) : IrqInv (push_key cfg s code) := by
  unfold IrqInv
  rw [push_key_state, push_key_fifo]
  simp [enqueue_ne_nil cfg hcap]

theorem device_reset_inv (s : news_hle_kbd_device) : IrqInv (device_reset s) := by
  unfold IrqInv
  rw [device_reset_state, device_reset_fifo]
  simp

theorem data_r_inv (s : news_hle_kbd_device) (h : IrqInv s) : IrqInv (data_r s).2 := by
  unfold IrqInv at *
  cases hq : s.m_fifo with
  | nil =>
    have h2 : data_r s = (0, s) := by simp [data_r, fifo.empty, hq]
    rw [h2]; simpa [hq] using h
  | cons c rest =>
    cases rest with
    | nil =>
      simp [data_r, fifo.empty, fifo.dequeue, hq, out_irq_state, out_irq_fifo]
    | cons d rest2 =>
      have hs : s.m_irq_out_state = true := h.mpr (by simp [hq])
      simp [data_r, fifo.empty, fifo.dequeue, hq, hs]

theorem apply_inv (cfg : FifoConfig) (hcap : 0 < cfg.capacity) (s : news_hle_kbd_device)
    (op : KbdOp) (h : IrqInv s) : IrqInv (op.apply cfg s) := by
  cases op with
  | key_make row column => exact push_key_inv cfg hcap s _
  | key_break row column => exact push_key_inv cfg hcap s _
  | data_r => exact data_r_inv s h
  | device_reset => exact device_reset_inv s

theorem run_inv (cfg : FifoConfig) (hcap : 0 < cfg.capacity) (ops : List KbdOp) :
    ∀ s : news_hle_kbd_device, IrqInv s → IrqInv (run cfg s ops) := by
  induction ops with
  | nil => intro s h; exact h
  | cons op ops ih => intro s h; exact ih _ (apply_inv cfg hcap s op h)

theorem delivery_from (cfg : FifoConfig) (ops : List KbdOp) :
    ∀ s : news_hle_kbd_device, (∀ op ∈ ops, op.isKeyOrRead = true) →
      pushesBelowCapacity cfg s ops = true →
      returned cfg s ops ++ (run cfg s ops).m_fifo = s.m_fifo ++ pushed ops := by
  induction ops with
  | nil => intro s _ _; simp [returned, run, pushed]
  | cons op ops ih =>
    intro s hops hcap
    have hrest : ∀ o ∈ ops, o.isKeyOrRead = true := fun o ho => hops o (List.mem_cons_of_mem _ ho)
    have hop : op.isKeyOrRead = true := hops op (List.mem_cons_self _ _)
    simp only [pushesBelowCapacity, Bool.and_eq_true, Bool.or_eq_true, decide_eq_true_eq] at hcap
    obtain ⟨hhere, hlater⟩ := hcap
    have hih := ih (op.apply cfg s) hrest hlater
    cases op with
    | key_make row column =>
      have hroom : s.m_fifo.length < cfg.capacity := by simpa [KbdOp.code] using hhere
      have hq : (KbdOp.apply cfg s (KbdOp.key_make row column)).m_fifo
          = s.m_fifo ++ [u8 ((u8 row <<< 4) ||| u8 column)] := by
        simp [KbdOp.apply, key_make, push_key_fifo, enqueue_below cfg _ _ hroom]
      rw [hq] at hih
      simp only [returned, run, pushed, KbdOp.code]
      rw [hih]; simp
    | key_break row column =>
      have hroom : s.m_fifo.length < cfg.capacity := by simpa [KbdOp.code] using hhere
      have hq : (KbdOp.apply cfg s (KbdOp.key_break row column)).m_fifo
          = s.m_fifo ++ [u8 (0x80 ||| (u8 row <<< 4) ||| u8 column)] := by
        simp [KbdOp.apply, key_break, push_key_fifo, enqueue_below cfg _ _ hroom]
      rw [hq] at hih
      simp only [returned, run, pushed, KbdOp.code]
      rw [hih]; simp
    | data_r =>
      cases hq : s.m_fifo with
      | nil =>
        have h2 : data_r s = (0, s) := by simp [data_r, fifo.empty, hq]
        have h3 : KbdOp.apply cfg s KbdOp.data_r = s := by simp [KbdOp.apply, h2]
        rw [h3] at hih
        simp only [returned, run, pushed, KbdOp.code, fifo.empty, hq, List.isEmpty_nil, if_true,
          h3]
        rw [hih, hq]
      | cons c rest =>
        obtain ⟨h1, h2⟩ := data_r_cons s c rest hq
        have h3 : (KbdOp.apply cfg s KbdOp.data_r).m_fifo = rest := by
          simpa [KbdOp.apply] using h2
        rw [h3] at hih
        simp only [returned, run, pushed, KbdOp.code, fifo.empty, hq, List.isEmpty_cons,
          Bool.false_eq_true, if_false, h1, List.cons_append]
        rw [hih]
    | device_reset => simp [KbdOp.isKeyOrRead] at hop

theorem data_r_last (s : news_hle_kbd_device) (c : Nat) (hq : s.m_fifo = [c]) :
    (data_r s).2.m_fifo = [] ∧ (data_r s).2.m_irq_out_state = false := by
  simp [data_r, fifo.empty, fifo.dequeue, hq, out_irq_state, out_irq_fifo]

theorem data_r_more (s : news_hle_kbd_device) (c d : Nat) (rest : List Nat)
    (hq : s.m_fifo = c :: d :: rest) :
    (data_r s).2.m_fifo = d :: rest
      ∧ (data_r s).2.m_irq_out_state = s.m_irq_out_state
      ∧ (data_r s).2.m_irq_out_cb = s.m_irq_out_cb := by
  simp [data_r, fifo.empty, fifo.dequeue, hq]

theorem out_irq_cb (s : news_hle_kbd_device) (b : Bool) :
    (out_irq s b).m_irq_out_cb
      = if s.m_irq_out_state = b then s.m_irq_out_cb else s.m_irq_out_cb ++ [b] := by
  unfold out_irq
  cases hs : s.m_irq_out_state <;> cases b <;> simp [hs]

theorem out_irq_edge (s : news_hle_kbd_device) (b : Bool) : IrqEdge s (out_irq s b) := by
  unfold IrqEdge
  rw [out_irq_cb, out_irq_state]
  by_cases h : s.m_irq_out_state = b
  · left; simp [h]
  · right; simp [h]; exact fun hb => h hb.symm

theorem push_key_edge (cfg : FifoConfig) (s : news_hle_kbd_device) (code : Nat) :
    IrqEdge s (push_key cfg s code) := by
  simpa [IrqEdge, push_key] using
    out_irq_edge { s with m_fifo := fifo.enqueue cfg s.m_fifo code } true

theorem device_reset_edge (s : news_hle_kbd_device) : IrqEdge s (device_reset s) := by
  simpa [IrqEdge, device_reset, start_processing, reset_key_state] using
    out_irq_edge { s with m_fifo := fifo.clear s.m_fifo } false

theorem data_r_edge (s : news_hle_kbd_device) : IrqEdge s (data_r s).2 := by
  unfold data_r
  split
  · left; exact ⟨rfl, rfl⟩
  · simp only
    split
    · simpa [IrqEdge] using out_irq_edge { s with m_fifo := (fifo.dequeue s.m_fifo).2 } false
    · left; exact ⟨rfl, rfl⟩

theorem apply_edge (cfg : FifoConfig) (s : news_hle_kbd_device) (op : KbdOp) :
    IrqEdge s (op.apply cfg s) := by
  cases op with
  | key_make row column => exact push_key_edge cfg s _
  | key_break row column => exact push_key_edge cfg s _
  | data_r => exact data_r_edge s
  | device_reset => exact device_reset_edge s

theorem edge_trace_inv (base : List Bool) (s t : news_hle_kbd_device)
    (h : TraceInv base s) (he : IrqEdge s t) : TraceInv base t := by
  obtain ⟨d, hd, hc, hl⟩ := h
  rcases he with ⟨hs, hcb⟩ | ⟨hs, hcb⟩
  · exact ⟨d, by rw [hcb, hd], hc, by rw [hs]; exact hl⟩
  · refine ⟨d ++ [t.m_irq_out_state], by rw [hcb, hd, List.append_assoc], ?_, by simp⟩
    refine List.chain'_append.2 ⟨hc, List.chain'_singleton _, ?_⟩
    intro v hv y hy
    have hy2 : y = t.m_irq_out_state := by simpa using hy.symm
    rw [hy2, hl v hv]
    exact fun hst => hs hst.symm

theorem run_trace_inv (cfg : FifoConfig) (base : List Bool) (ops : List KbdOp) :
    ∀ s : news_hle_kbd_device, TraceInv base s → TraceInv base (run cfg s ops) := by
  induction ops with
  | nil => intro s h; exact h
  | cons op ops ih => intro s h; exact ih _ (edge_trace_inv base s _ h (apply_edge cfg s op))

theorem run_delivered (cfg : FifoConfig) (s : news_hle_kbd_device) (ops : List KbdOp) :
    (run cfg s ops).m_irq_out_cb = s.m_irq_out_cb ++ delivered cfg s ops
      ∧ List.Chain' (fun x y => x ≠ y) (delivered cfg s ops) := by
  have h0 : TraceInv s.m_irq_out_cb s := ⟨[], by simp, List.chain'_nil, by simp⟩
  obtain ⟨d, hd, hc, _⟩ := run_trace_inv cfg s.m_irq_out_cb ops s h0
  have hdel : delivered cfg s ops = d := by
    unfold delivered
    rw [hd, List.drop_left]
  rw [hdel]
  exact ⟨hd, hc⟩

theorem push_key_cb (cfg : FifoConfig) (s : news_hle_kbd_device) (code : Nat) :
    (push_key cfg s code).m_irq_out_cb
      = if s.m_irq_out_state = true then s.m_irq_out_cb else s.m_irq_out_cb ++ [true] := by
  simp [push_key, out_irq_cb]

theorem data_r_last_cb (s : news_hle_kbd_device) (c : Nat) (hq : s.m_fifo = [c])
    (h : s.m_irq_out_state = true) :
    (data_r s).2.m_irq_out_cb = s.m_irq_out_cb ++ [false] := by
  simp [data_r, fifo.empty, fifo.dequeue, hq, out_irq_cb, h]

theorem event_code_make (row column : Nat) (hr : row < 8) (hc : column < 16) :
    event_code false row column = 16 * row + column := by
  simp [event_code, make_code_eq row column hr hc]

theorem event_code_break (row column : Nat) (hr : row < 8) (hc : column < 16) :
    event_code true row column = 128 + 16 * row + column := by
  simp [event_code, break_code_eq row column hr hc]

theorem event_code_decode (brk : Bool) (row column : Nat) (hr : row < 8) (hc : column < 16) :
    event_code brk row column < 256
      ∧ (event_code brk row column >>> 4) &&& 7 = row
      ∧ event_code brk row column &&& 0x0F = column
      ∧ event_code brk row column >>> 7 = (if brk then 1 else 0) := by
  cases brk
  · rw [event_code_make row column hr hc]
    interval_cases row <;> interval_cases column <;> decide
  · rw [event_code_break row column hr hc]
    interval_cases row <;> interval_cases column <;> decide

theorem device_reset_scan (s : news_hle_kbd_device) :
    (device_reset s).m_processing = true ∧ (device_reset s).m_scan_hz = 1200 := by
  simp [device_reset, start_processing]

theorem key_defined_bounds (row column : Nat) (h : key_defined row column = true) :
    row < 8 ∧ column < 16 ∧ ¬ (row = 0 ∧ column = 0) := by
  unfold key_defined at h
  simp only [Bool.and_eq_true, decide_eq_true_eq] at h
  obtain ⟨hc, hb⟩ := h
  have hr : row < 8 := by
    by_contra hge
    have hlen : keyboard_rows.length ≤ row := by simp [keyboard_rows]; omega
    rw [List.getD_eq_getElem?_getD, List.getElem?_eq_none hlen] at hb
    simp at hb
  refine ⟨hr, hc, ?_⟩
  rintro ⟨rfl, rfl⟩
  revert hb
  decide

theorem defined_key_codes (row column : Nat) (h : key_defined row column = true) :
    0x01 ≤ event_code false row column ∧ event_code false row column ≤ 0x7F
      ∧ 0x80 ≤ event_code true row column ∧ event_code true row column ≤ 0xFF := by
  obtain ⟨hr, hc, hne⟩ := key_defined_bounds row column h
  rw [event_code_make row column hr hc, event_code_break row column hr hc]
  omega

theorem enqueue_nonzero (cfg : FifoConfig) (q : List Nat) (v : Nat)
    (hq : ∀ c ∈ q, c ≠ 0) (hv : v ≠ 0) : ∀ c ∈ fifo.enqueue cfg q v, c ≠ 0 := by
  have happ : ∀ c ∈ q ++ [v], c ≠ 0 := by
    intro c hc
    rcases List.mem_append.1 hc with h | h
    · exact hq c h
    · simp at h; rw [h]; exact hv
  unfold fifo.enqueue
  split
  · exact happ
  · cases cfg.policy
    · exact hq
    · exact fun c hc => happ c (List.mem_of_mem_drop hc)
    · exact happ

theorem push_key_nonzero (cfg : FifoConfig) (s : news_hle_kbd_device) (code : Nat)
    (hs : NonzeroCodes s) (hv : code ≠ 0) : NonzeroCodes (push_key cfg s code) := by
  unfold NonzeroCodes
  rw [push_key_fifo]
  exact enqueue_nonzero cfg s.m_fifo code hs hv

theorem data_r_fifo_tail (s : news_hle_kbd_device) : (data_r s).2.m_fifo = s.m_fifo.tail := by
  cases hq : s.m_fifo with
  | nil =>
    have h2 : data_r s = (0, s) := by simp [data_r, fifo.empty, hq]
    rw [h2]; simpa using hq
  | cons c rest => simpa using (data_r_cons s c rest hq).2

theorem apply_nonzero (cfg : FifoConfig) (s : news_hle_kbd_device) (op : KbdOp)
    (hop : op.fromDefinedKey = true) (hs : NonzeroCodes s) : NonzeroCodes (op.apply cfg s) := by
  cases op with
  | key_make row column =>
    have hc := (defined_key_codes row column hop).1
    exact push_key_nonzero cfg s (event_code false row column) hs (by omega)
  | key_break row column =>
    have hc := (defined_key_codes row column hop).2.2.1
    exact push_key_nonzero cfg s (event_code true row column) hs (by omega)
  | data_r =>
    unfold NonzeroCodes
    show ∀ c ∈ (data_r s).2.m_fifo, c ≠ 0
    rw [data_r_fifo_tail]
    exact fun c hc => hs c (List.mem_of_mem_tail hc)
  | device_reset =>
    unfold NonzeroCodes
    show ∀ c ∈ (device_reset s).m_fifo, c ≠ 0
    rw [device_reset_fifo]
    simp

theorem run_nonzero (cfg : FifoConfig) (ops : List KbdOp) :
    ∀ s : news_hle_kbd_device, (∀ op ∈ ops, op.fromDefinedKey = true) → NonzeroCodes s →
      NonzeroCodes (run cfg s ops) := by
  induction ops with
  | nil => intro s _ hs; exact hs
  | cons op ops ih =>
    intro s hops hs
    exact ih _ (fun o ho => hops o (List.mem_cons_of_mem _ ho))
      (apply_nonzero cfg s op (hops op (List.mem_cons_self _ _)) hs)

theorem data_r_zero_iff (s : news_hle_kbd_device) (hs : NonzeroCodes s) :
    (data_r s).1 = 0 ↔ s.m_fifo = [] := by
  cases hq : s.m_fifo with
  | nil => simp [data_r, fifo.empty, hq]
  | cons c rest =>
    rw [(data_r_cons s c rest hq).1]
    have hc : c ≠ 0 := hs c (by rw [hq]; exact List.mem_cons_self _ _)
    simp [hc]

/-! ## Theorems -/

/-- C1: FIFO delivery order. For every sequence of `key_make`, `key_break` and
`data_r` calls applied after `device_reset` in which no code is pushed while
the FIFO is at capacity, the bytes returned by the `data_r` calls made on a
non-empty FIFO, followed by the codes still queued at the end, are exactly the
codes pushed, in push order; so the returned bytes are an initial segment of
the pushed codes, and once the FIFO is drained every pushed code has been
returned exactly once. -/
theorem fifo_delivery_order (cfg : FifoConfig) (s0 : news_hle_kbd_device) (ops : List KbdOp)
    (hops : ∀ op ∈ ops, op.isKeyOrRead = true)
    (hcap : pushesBelowCapacity cfg (device_reset s0) ops = true) :
    returned cfg (device_reset s0) ops ++ (run cfg (device_reset s0) ops).m_fifo = pushed ops
      ∧ returned cfg (device_reset s0) ops <+: pushed ops
      ∧ ((run cfg (device_reset s0) ops).m_fifo = [] →
          returned cfg (device_reset s0) ops = pushed ops) := by
  have h := delivery_from cfg ops (device_reset s0) hops hcap
  rw [device_reset_fifo, List.nil_append] at h
  refine ⟨h, ⟨_, h⟩, ?_⟩
  intro hq
  rw [hq, List.append_nil] at h
  exact h

/-- Witness of C1: capacity 4, three key events interleaved with four reads
(the first one on the empty FIFO), ending drained. -/
theorem fifo_delivery_order_witness :
    returned ⟨4, OverflowPolicy.dropNewest⟩ (device_reset ⟨[9], true, [], [], false, 0⟩)
        [KbdOp.data_r, KbdOp.key_make 2 5, KbdOp.key_break 2 5, KbdOp.data_r,
          KbdOp.key_make 0 1, KbdOp.data_r, KbdOp.data_r]
      ++ (run ⟨4, OverflowPolicy.dropNewest⟩ (device_reset ⟨[9], true, [], [], false, 0⟩)
        [KbdOp.data_r, KbdOp.key_make 2 5, KbdOp.key_break 2 5, KbdOp.data_r,
          KbdOp.key_make 0 1, KbdOp.data_r, KbdOp.data_r]).m_fifo
      = [0x25, 0xA5, 0x01] :=
  (fifo_delivery_order ⟨4, OverflowPolicy.dropNewest⟩ ⟨[9], true, [], [], false, 0⟩
    [KbdOp.data_r, KbdOp.key_make 2 5, KbdOp.key_break 2 5, KbdOp.data_r,
      KbdOp.key_make 0 1, KbdOp.data_r, KbdOp.data_r] (by decide) (by decide)).1

/-- C2: interrupt invariant. In every state reachable from `device_reset` by
any finite sequence of `key_make`, `key_break`, `data_r` and `device_reset`
calls, the interrupt output state is true if and only if the FIFO is
non-empty (the FIFO holding at least one code). -/
theorem irq_iff_fifo_nonempty (cfg : FifoConfig) (hcap : 0 < cfg.capacity)
    (s0 : news_hle_kbd_device) (ops : List KbdOp) :
    (run cfg (device_reset s0) ops).m_irq_out_state = true
      ↔ (run cfg (device_reset s0) ops).m_fifo ≠ [] :=
  run_inv cfg hcap ops (device_reset s0) (device_reset_inv s0)

/-- Witness of C2: capacity 1 with the drop-oldest policy, an overflowing
second key event, a read, a reset and a last key event. -/
theorem irq_iff_fifo_nonempty_witness :
    (run ⟨1, OverflowPolicy.dropOldest⟩ (device_reset ⟨[9], false, [], [], false, 0⟩)
        [KbdOp.key_make 2 5, KbdOp.key_break 2 5, KbdOp.data_r, KbdOp.device_reset,
          KbdOp.key_make 7 15]).m_irq_out_state = true
      ↔ (run ⟨1, OverflowPolicy.dropOldest⟩ (device_reset ⟨[9], false, [], [], false, 0⟩)
        [KbdOp.key_make 2 5, KbdOp.key_break 2 5, KbdOp.data_r, KbdOp.device_reset,
          KbdOp.key_make 7 15]).m_fifo ≠ [] :=
  irq_iff_fifo_nonempty ⟨1, OverflowPolicy.dropOldest⟩ (by decide)
    ⟨[9], false, [], [], false, 0⟩ _

/-- C3: `data_r` on a non-empty FIFO returns the oldest queued code (the head
of the queue) and removes exactly that code: the codes behind it stay queued
in their original order and the FIFO length decreases by exactly one. -/
theorem data_r_returns_oldest (s : news_hle_kbd_device) (h : s.m_fifo ≠ []) :
    ∃ c rest, s.m_fifo = c :: rest ∧ (data_r s).1 = c ∧ (data_r s).2.m_fifo = rest
      ∧ (data_r s).2.m_fifo.length + 1 = s.m_fifo.length := by
  cases hq : s.m_fifo with
  | nil => exact absurd hq h
  | cons c rest =>
    obtain ⟨h1, h2⟩ := data_r_cons s c rest hq
    exact ⟨c, rest, rfl, h1, h2, by rw [h2]; rfl⟩

/-- Witness of C3 on the queue 0x25, 0xA5 with the interrupt line asserted. -/
theorem data_r_returns_oldest_witness :
    ∃ c rest, [0x25, 0xA5] = c :: rest
      ∧ (data_r ⟨[0x25, 0xA5], true, [true], [], true, 1200⟩).1 = c
      ∧ (data_r ⟨[0x25, 0xA5], true, [true], [], true, 1200⟩).2.m_fifo = rest
      ∧ (data_r ⟨[0x25, 0xA5], true, [true], [], true, 1200⟩).2.m_fifo.length + 1
          = [0x25, 0xA5].length :=
  data_r_returns_oldest ⟨[0x25, 0xA5], true, [true], [], true, 1200⟩ (by decide)

/-- C4: `data_r` on an empty FIFO returns the sentinel 0 and changes nothing:
the state after is the state before, so the FIFO stays empty, the interrupt
output state is what it was and the interrupt callback is not invoked. -/
theorem data_r_empty (s : news_hle_kbd_device) (h : s.m_fifo = []) :
    (data_r s).1 = 0 ∧ (data_r s).2 = s ∧ (data_r s).2.m_fifo = []
      ∧ (data_r s).2.m_irq_out_state = s.m_irq_out_state
      ∧ (data_r s).2.m_irq_out_cb = s.m_irq_out_cb := by
  have h2 : data_r s = (0, s) := by simp [data_r, fifo.empty, h]
  rw [h2]
  exact ⟨rfl, rfl, h, rfl, rfl⟩

/-- Witness of C4 on an empty FIFO whose interrupt state is (still) true. -/
theorem data_r_empty_witness :
    (data_r ⟨[], true, [], [], false, 0⟩).1 = 0
      ∧ (data_r ⟨[], true, [], [], false, 0⟩).2 = ⟨[], true, [], [], false, 0⟩
      ∧ (data_r ⟨[], true, [], [], false, 0⟩).2.m_fifo = []
      ∧ (data_r ⟨[], true, [], [], false, 0⟩).2.m_irq_out_state = true
      ∧ (data_r ⟨[], true, [], [], false, 0⟩).2.m_irq_out_cb = [] :=
  data_r_empty ⟨[], true, [], [], false, 0⟩ rfl

/-- C5 as stated fails at capacity. After a reset and eight key events on a
FIFO of capacity 8, `key_make(2, 5)` does not append 0x25 behind the eight
queued codes: under drop-newest the FIFO is unchanged, under drop-oldest the
oldest queued code 0x01 is gone. -/
theorem key_make_at_capacity_counterexample :
    (key_make ⟨8, OverflowPolicy.dropNewest⟩
        (run ⟨8, OverflowPolicy.dropNewest⟩ (device_reset ⟨[], false, [], [], false, 0⟩)
          [KbdOp.key_make 0 1, KbdOp.key_make 0 2, KbdOp.key_make 0 3, KbdOp.key_make 0 4,
            KbdOp.key_make 0 5, KbdOp.key_make 0 6, KbdOp.key_make 0 7, KbdOp.key_make 0 8])
        2 5).m_fifo = [1, 2, 3, 4, 5, 6, 7, 8]
      ∧ (key_make ⟨8, OverflowPolicy.dropNewest⟩
        (run ⟨8, OverflowPolicy.dropNewest⟩ (device_reset ⟨[], false, [], [], false, 0⟩)
          [KbdOp.key_make 0 1, KbdOp.key_make 0 2, KbdOp.key_make 0 3, KbdOp.key_make 0 4,
            KbdOp.key_make 0 5, KbdOp.key_make 0 6, KbdOp.key_make 0 7, KbdOp.key_make 0 8])
        2 5).m_fifo ≠ [1, 2, 3, 4, 5, 6, 7, 8] ++ [16 * 2 + 5]
      ∧ (key_make ⟨8, OverflowPolicy.dropOldest⟩
        (run ⟨8, OverflowPolicy.dropOldest⟩ (device_reset ⟨[], false, [], [], false, 0⟩)
          [KbdOp.key_make 0 1, KbdOp.key_make 0 2, KbdOp.key_make 0 3, KbdOp.key_make 0 4,
            KbdOp.key_make 0 5, KbdOp.key_make 0 6, KbdOp.key_make 0 7, KbdOp.key_make 0 8])
        2 5).m_fifo = [2, 3, 4, 5, 6, 7, 8, 0x25]
      ∧ (key_make ⟨8, OverflowPolicy.dropOldest⟩
        (run ⟨8, OverflowPolicy.dropOldest⟩ (device_reset ⟨[], false, [], [], false, 0⟩)
          [KbdOp.key_make 0 1, KbdOp.key_make 0 2, KbdOp.key_make 0 3, KbdOp.key_make 0 4,
            KbdOp.key_make 0 5, KbdOp.key_make 0 6, KbdOp.key_make 0 7, KbdOp.key_make 0 8])
        2 5).m_fifo ≠ [1, 2, 3, 4, 5, 6, 7, 8] ++ [16 * 2 + 5] := by
  refine ⟨by decide, by decide, by decide, by decide⟩

/-- C5, amended: for every row in 0..7 and column in 0..15, `key_make(row,
column)` called while the FIFO holds fewer codes than its capacity appends to
the tail of the FIFO exactly one byte equal to `(row << 4) | column`
= 16*row + column, whose high bit (0x80) is clear, and leaves the codes
already queued untouched. -/
theorem key_make_appends_code (cfg : FifoConfig) (s : news_hle_kbd_device) (row column : Nat)
    (hr : row < 8) (hc : column < 16) (hroom : s.m_fifo.length < cfg.capacity) :
    (key_make cfg s row column).m_fifo = s.m_fifo ++ [16 * row + column]
      ∧ (row <<< 4) ||| column = 16 * row + column
      ∧ (16 * row + column) &&& 0x80 = 0 := by
  refine ⟨?_, ?_, ?_⟩
  · rw [key_make, push_key_fifo, enqueue_below cfg _ _ hroom, make_code_eq row column hr hc]
  · interval_cases row <;> interval_cases column <;> rfl
  · interval_cases row <;> interval_cases column <;> rfl

/-- Witness of amended C5: the highest make code, 0x7F, behind one queued
code in a FIFO of capacity 2. -/
theorem key_make_appends_code_witness :
    (key_make ⟨2, OverflowPolicy.dropNewest⟩ ⟨[0x25], true, [true], [], true, 1200⟩ 7 15).m_fifo
        = [0x25] ++ [16 * 7 + 15]
      ∧ (7 <<< 4) ||| 15 = 16 * 7 + 15
      ∧ (16 * 7 + 15) &&& 0x80 = 0 :=
  key_make_appends_code ⟨2, OverflowPolicy.dropNewest⟩ ⟨[0x25], true, [true], [], true, 1200⟩
    7 15 (by decide) (by decide) (by decide)

/-- C6 as stated fails at capacity. On a FIFO of capacity 2 holding the two
codes of a reset, `key_make(2, 5)`, `key_make(3, 1)` run, `key_break(2, 5)`
does not append 0xA5 behind them: under drop-newest the FIFO is unchanged,
under drop-oldest the queued code 0x25 is gone. -/
theorem key_break_at_capacity_counterexample :
    (key_break ⟨2, OverflowPolicy.dropNewest⟩
        (run ⟨2, OverflowPolicy.dropNewest⟩ (device_reset ⟨[], false, [], [], false, 0⟩)
          [KbdOp.key_make 2 5, KbdOp.key_make 3 1]) 2 5).m_fifo = [0x25, 0x31]
      ∧ (key_break ⟨2, OverflowPolicy.dropNewest⟩
        (run ⟨2, OverflowPolicy.dropNewest⟩ (device_reset ⟨[], false, [], [], false, 0⟩)
          [KbdOp.key_make 2 5, KbdOp.key_make 3 1]) 2 5).m_fifo
          ≠ [0x25, 0x31] ++ [128 + 16 * 2 + 5]
      ∧ (key_break ⟨2, OverflowPolicy.dropOldest⟩
        (run ⟨2, OverflowPolicy.dropOldest⟩ (device_reset ⟨[], false, [], [], false, 0⟩)
          [KbdOp.key_make 2 5, KbdOp.key_make 3 1]) 2 5).m_fifo = [0x31, 0xA5]
      ∧ (key_break ⟨2, OverflowPolicy.dropOldest⟩
        (run ⟨2, OverflowPolicy.dropOldest⟩ (device_reset ⟨[], false, [], [], false, 0⟩)
          [KbdOp.key_make 2 5, KbdOp.key_make 3 1]) 2 5).m_fifo
          ≠ [0x25, 0x31] ++ [128 + 16 * 2 + 5] := by
  refine ⟨by decide, by decide, by decide, by decide⟩

/-- C6, amended: for every row in 0..7 and column in 0..15, `key_break(row,
column)` called while the FIFO holds fewer codes than its capacity appends to
the tail of the FIFO exactly one byte equal to `0x80 | (row << 4) | column`
= 128 + 16*row + column, which is the make code of the same key with the high
bit set. -/
theorem key_break_appends_code (cfg : FifoConfig) (s : news_hle_kbd_device) (row column : Nat)
    (hr : row < 8) (hc : column < 16) (hroom : s.m_fifo.length < cfg.capacity) :
    (key_break cfg s row column).m_fifo = s.m_fifo ++ [128 + 16 * row + column]
      ∧ 0x80 ||| (row <<< 4) ||| column = 128 + 16 * row + column
      ∧ (key_make cfg s row column).m_fifo = s.m_fifo ++ [16 * row + column]
      ∧ 128 + 16 * row + column = 0x80 ||| (16 * row + column) := by
  refine ⟨?_, ?_, ?_, ?_⟩
  · rw [key_break, push_key_fifo, enqueue_below cfg _ _ hroom, break_code_eq row column hr hc]
  · interval_cases row <;> interval_cases column <;> rfl
  · rw [key_make, push_key_fifo, enqueue_below cfg _ _ hroom, make_code_eq row column hr hc]
  · interval_cases row <;> interval_cases column <;> rfl

/-- Witness of amended C6: the highest break code, 0xFF, on an empty FIFO of
capacity 1 whose interrupt line is deasserted. -/
theorem key_break_appends_code_witness :
    (key_break ⟨1, OverflowPolicy.dropOldest⟩ ⟨[], false, [], [], true, 1200⟩ 7 15).m_fifo
        = [] ++ [128 + 16 * 7 + 15]
      ∧ 0x80 ||| (7 <<< 4) ||| 15 = 128 + 16 * 7 + 15
      ∧ (key_make ⟨1, OverflowPolicy.dropOldest⟩ ⟨[], false, [], [], true, 1200⟩ 7 15).m_fifo
        = [] ++ [16 * 7 + 15]
      ∧ 128 + 16 * 7 + 15 = 0x80 ||| (16 * 7 + 15) :=
  key_break_appends_code ⟨1, OverflowPolicy.dropOldest⟩ ⟨[], false, [], [], true, 1200⟩
    7 15 (by decide) (by decide) (by decide)

/-- C7: `device_reset` from any prior state (any FIFO contents, interrupt
state true or false) leaves the FIFO empty and the interrupt output state
false, and a following `data_r` returns 0. -/
theorem device_reset_clears (s : news_hle_kbd_device) :
    (device_reset s).m_fifo = [] ∧ (device_reset s).m_irq_out_state = false
      ∧ (data_r (device_reset s)).1 = 0 := by
  refine ⟨device_reset_fifo s, device_reset_state s, ?_⟩
  simp [data_r, fifo.empty, device_reset_fifo]

/-- C8: interrupt line after each keyboard operation. The interrupt output
state is true immediately after every `key_make` and every `key_break`; it is
false immediately after a `data_r` that removes the last queued code; and a
`data_r` that leaves at least one code queued leaves the interrupt output
state unchanged and invokes no callback. -/
theorem irq_after_each_operation (cfg : FifoConfig) (s : news_hle_kbd_device) :
    (∀ row column, (key_make cfg s row column).m_irq_out_state = true)
      ∧ (∀ row column, (key_break cfg s row column).m_irq_out_state = true)
      ∧ (∀ c, s.m_fifo = [c] →
          (data_r s).2.m_fifo = [] ∧ (data_r s).2.m_irq_out_state = false)
      ∧ (∀ c d rest, s.m_fifo = c :: d :: rest →
          (data_r s).2.m_fifo = d :: rest
            ∧ (data_r s).2.m_irq_out_state = s.m_irq_out_state
            ∧ (data_r s).2.m_irq_out_cb = s.m_irq_out_cb) := by
  exact ⟨fun _ _ => push_key_state cfg s _, fun _ _ => push_key_state cfg s _,
    data_r_last s, data_r_more s⟩

/-- Witness of C8: a key event on a full FIFO of capacity 1, and the two
kinds of read, on the queues 0x25 and 0x25, 0xA5. -/
theorem irq_after_each_operation_witness :
    (key_make ⟨1, OverflowPolicy.dropNewest⟩ ⟨[0x25], false, [], [], true, 1200⟩ 3 1).m_irq_out_state
        = true
      ∧ ((data_r ⟨[0x25], true, [true], [], true, 1200⟩).2.m_fifo = []
        ∧ (data_r ⟨[0x25], true, [true], [], true, 1200⟩).2.m_irq_out_state = false)
      ∧ ((data_r ⟨[0x25, 0xA5], true, [true], [], true, 1200⟩).2.m_fifo = [0xA5]
        ∧ (data_r ⟨[0x25, 0xA5], true, [true], [], true, 1200⟩).2.m_irq_out_state = true
        ∧ (data_r ⟨[0x25, 0xA5], true, [true], [], true, 1200⟩).2.m_irq_out_cb = [true]) :=
  ⟨(irq_after_each_operation ⟨1, OverflowPolicy.dropNewest⟩
      ⟨[0x25], false, [], [], true, 1200⟩).1 3 1,
    (irq_after_each_operation ⟨1, OverflowPolicy.dropNewest⟩
      ⟨[0x25], true, [true], [], true, 1200⟩).2.2.1 0x25 rfl,
    (irq_after_each_operation ⟨1, OverflowPolicy.dropNewest⟩
      ⟨[0x25, 0xA5], true, [true], [], true, 1200⟩).2.2.2 0x25 0xA5 [] rfl⟩

/-- C9: concrete scenario on a freshly reset keyboard whose FIFO holds at
least two codes. `key_make(2, 5)` queues 0x25 and `key_break(2, 5)` queues
0xA5; the interrupt state is true after both; the first `data_r` returns 0x25
and leaves the interrupt state true; the second `data_r` returns 0xA5 and
leaves the interrupt state false. -/
theorem scenario_make_break_read_read (cfg : FifoConfig) (hcap : 2 ≤ cfg.capacity)
    (s0 : news_hle_kbd_device) :
    (key_make cfg (device_reset s0) 2 5).m_fifo = [0x25]
      ∧ (key_make cfg (device_reset s0) 2 5).m_irq_out_state = true
      ∧ (key_break cfg (key_make cfg (device_reset s0) 2 5) 2 5).m_fifo = [0x25, 0xA5]
      ∧ (key_break cfg (key_make cfg (device_reset s0) 2 5) 2 5).m_irq_out_state = true
      ∧ (data_r (key_break cfg (key_make cfg (device_reset s0) 2 5) 2 5)).1 = 0x25
      ∧ (data_r (key_break cfg (key_make cfg (device_reset s0) 2 5) 2 5)).2.m_irq_out_state
          = true
      ∧ (data_r (data_r (key_break cfg (key_make cfg (device_reset s0) 2 5) 2 5)).2).1 = 0xA5
      ∧ (data_r (data_r (key_break cfg (key_make cfg (device_reset s0) 2 5) 2 5)).2).2.m_irq_out_state
          = false := by
  have h1 : (key_make cfg (device_reset s0) 2 5).m_fifo = [0x25] := by
    rw [key_make, push_key_fifo, device_reset_fifo, enqueue_below cfg _ _ (by simp; omega)]
    rfl
  have h2 : (key_break cfg (key_make cfg (device_reset s0) 2 5) 2 5).m_fifo = [0x25, 0xA5] := by
    rw [key_break, push_key_fifo, h1, enqueue_below cfg _ _ (by simp; omega)]
    rfl
  have h3 : (key_break cfg (key_make cfg (device_reset s0) 2 5) 2 5).m_irq_out_state = true :=
    push_key_state cfg _ _
  obtain ⟨h5, h6, _⟩ := data_r_more _ 0x25 0xA5 [] h2
  obtain ⟨h7, _⟩ := data_r_cons _ 0x25 [0xA5] h2
  obtain ⟨_, h9⟩ := data_r_last _ 0xA5 h5
  obtain ⟨h10, _⟩ := data_r_cons _ 0xA5 [] h5
  exact ⟨h1, push_key_state cfg _ _, h2, h3, h7, by rw [h6, h3], h10, h9⟩

/-- Witness of C9: capacity 2, the smallest the scenario fits in, on a
keyboard reset from a state with a queued code and the interrupt asserted. -/
theorem scenario_make_break_read_read_witness :
    (data_r (key_break ⟨2, OverflowPolicy.dropNewest⟩
        (key_make ⟨2, OverflowPolicy.dropNewest⟩
          (device_reset ⟨[9], true, [true], [], false, 0⟩) 2 5) 2 5)).1 = 0x25
      ∧ (data_r (data_r (key_break ⟨2, OverflowPolicy.dropNewest⟩
        (key_make ⟨2, OverflowPolicy.dropNewest⟩
          (device_reset ⟨[9], true, [true], [], false, 0⟩) 2 5) 2 5)).2).1 = 0xA5 :=
  ⟨(scenario_make_break_read_read ⟨2, OverflowPolicy.dropNewest⟩ (by decide)
      ⟨[9], true, [true], [], false, 0⟩).2.2.2.2.1,
    (scenario_make_break_read_read ⟨2, OverflowPolicy.dropNewest⟩ (by decide)
      ⟨[9], true, [true], [], false, 0⟩).2.2.2.2.2.2.1⟩

/-- C10: `device_reset` is idempotent: for every state, after one reset the
FIFO is empty and the interrupt output state false, after a second reset the
FIFO is again empty and the interrupt output state again false, the whole
state being that of the first reset, and the second reset invokes the
interrupt callback zero times: its trace is the trace after the first. -/
theorem device_reset_idempotent (s : news_hle_kbd_device) :
    device_reset (device_reset s) = device_reset s
      ∧ (device_reset s).m_fifo = []
      ∧ (device_reset (device_reset s)).m_fifo = []
      ∧ (device_reset s).m_irq_out_state = false
      ∧ (device_reset (device_reset s)).m_irq_out_state = false
      ∧ (device_reset (device_reset s)).m_fifo = (device_reset s).m_fifo
      ∧ (device_reset (device_reset s)).m_irq_out_state = (device_reset s).m_irq_out_state
      ∧ (device_reset (device_reset s)).m_irq_out_cb = (device_reset s).m_irq_out_cb := by
  have h : device_reset (device_reset s) = device_reset s := by
    have hs := device_reset_state s
    have key : ∀ t : news_hle_kbd_device, t.m_irq_out_state = false → t.m_fifo = [] →
        t.m_key_states = List.replicate 8 0 → t.m_processing = true → t.m_scan_hz = 1200 →
        device_reset t = t := by
      intro t h1 h2 h3 h4 h5
      cases t
      simp_all [device_reset, start_processing, reset_key_state, out_irq, fifo.clear]
    apply key _ hs (device_reset_fifo s)
    · simp [device_reset, start_processing, reset_key_state]
    · simp [device_reset, start_processing]
    · simp [device_reset, start_processing]
  refine ⟨h, device_reset_fifo s, device_reset_fifo _, device_reset_state s,
    device_reset_state _, ?_, ?_, ?_⟩ <;> rw [h]

/-- C11: edge-only notification. `out_irq(b)` invokes the interrupt callback
if and only if `b` differs from the current interrupt output state, and the
state afterwards is `b`; consequently, in every run of `key_make`,
`key_break`, `data_r` and `device_reset` calls, from any state, the successive
values delivered to the callback strictly alternate: no two consecutive
notifications carry the same value. -/
theorem edge_only_notification (cfg : FifoConfig) (s : news_hle_kbd_device) (b : Bool)
    (ops : List KbdOp) :
    (out_irq s b).m_irq_out_cb
        = (if s.m_irq_out_state = b then s.m_irq_out_cb else s.m_irq_out_cb ++ [b])
      ∧ (out_irq s b).m_irq_out_state = b
      ∧ (run cfg s ops).m_irq_out_cb = s.m_irq_out_cb ++ delivered cfg s ops
      ∧ List.Chain' (fun x y => x ≠ y) (delivered cfg s ops) :=
  ⟨out_irq_cb s b, out_irq_state s b, (run_delivered cfg s ops).1, (run_delivered cfg s ops).2⟩

/-- C19 as stated fails: on a freshly reset keyboard the first `key_make`
invokes the interrupt callback (the trace gains `true`), the second one, made
while a code is queued, does not invoke it at all: the trace is unchanged. -/
theorem key_make_without_callback_counterexample :
    (run ⟨8, OverflowPolicy.dropNewest⟩ (device_reset ⟨[], false, [], [], false, 0⟩)
        [KbdOp.key_make 2 5]).m_irq_out_cb = [true]
      ∧ (key_make ⟨8, OverflowPolicy.dropNewest⟩
          (run ⟨8, OverflowPolicy.dropNewest⟩ (device_reset ⟨[], false, [], [], false, 0⟩)
            [KbdOp.key_make 2 5]) 3 1).m_fifo = [0x25, 0x31]
      ∧ (key_make ⟨8, OverflowPolicy.dropNewest⟩
          (run ⟨8, OverflowPolicy.dropNewest⟩ (device_reset ⟨[], false, [], [], false, 0⟩)
            [KbdOp.key_make 2 5]) 3 1).m_irq_out_cb
        = (run ⟨8, OverflowPolicy.dropNewest⟩ (device_reset ⟨[], false, [], [], false, 0⟩)
            [KbdOp.key_make 2 5]).m_irq_out_cb := by
  refine ⟨by decide, by decide, by decide⟩

/-- C19, amended: in every state that satisfies the interrupt invariant (as
every state reachable from a reset does), a `key_make` or `key_break` call
made while the FIFO is empty invokes the interrupt callback exactly once, with
true; one made while the FIFO is non-empty does not invoke it; and every
`data_r` call that drains the FIFO to empty invokes it exactly once, with
false. -/
theorem callback_on_transitions (cfg : FifoConfig) (s : news_hle_kbd_device) (hinv : IrqInv s) :
    (s.m_fifo = [] → ∀ row column,
        (key_make cfg s row column).m_irq_out_cb = s.m_irq_out_cb ++ [true]
          ∧ (key_break cfg s row column).m_irq_out_cb = s.m_irq_out_cb ++ [true])
      ∧ (s.m_fifo ≠ [] → ∀ row column,
        (key_make cfg s row column).m_irq_out_cb = s.m_irq_out_cb
          ∧ (key_break cfg s row column).m_irq_out_cb = s.m_irq_out_cb)
      ∧ (∀ c, s.m_fifo = [c] →
        (data_r s).2.m_fifo = [] ∧ (data_r s).2.m_irq_out_cb = s.m_irq_out_cb ++ [false]) := by
  refine ⟨?_, ?_, ?_⟩
  · intro hq row column
    have hs : ¬ s.m_irq_out_state = true := fun h => hinv.mp h hq
    simp [key_make, key_break, push_key_cb, hs]
  · intro hq row column
    have hs : s.m_irq_out_state = true := hinv.mpr hq
    simp [key_make, key_break, push_key_cb, hs]
  · intro c hq
    have hs : s.m_irq_out_state = true := hinv.mpr (by simp [hq])
    exact ⟨(data_r_last s c hq).1, data_r_last_cb s c hq hs⟩

/-- Witness of amended C19: the three cases on a state reached from a reset
by one key event and, for the empty FIFO, one read more. -/
theorem callback_on_transitions_witness :
    (key_make ⟨8, OverflowPolicy.dropNewest⟩ ⟨[], false, [true, false], [], true, 1200⟩
        2 5).m_irq_out_cb = [true, false] ++ [true]
      ∧ (key_break ⟨8, OverflowPolicy.dropNewest⟩ ⟨[0x25], true, [true], [], true, 1200⟩
        2 5).m_irq_out_cb = [true]
      ∧ (data_r ⟨[0x25], true, [true], [], true, 1200⟩).2.m_irq_out_cb = [true] ++ [false] :=
  ⟨((callback_on_transitions ⟨8, OverflowPolicy.dropNewest⟩
      ⟨[], false, [true, false], [], true, 1200⟩ (by simp [IrqInv])).1 rfl 2 5).1,
    ((callback_on_transitions ⟨8, OverflowPolicy.dropNewest⟩
      ⟨[0x25], true, [true], [], true, 1200⟩ (by simp [IrqInv])).2.1 (by simp) 2 5).2,
    ((callback_on_transitions ⟨8, OverflowPolicy.dropNewest⟩
      ⟨[0x25], true, [true], [], true, 1200⟩ (by simp [IrqInv])).2.2 0x25 rfl).2⟩

/-- C12: make and break codes are an invertible encoding of the event. The
byte `key_make` or `key_break` pushes for a row in 0..7, a column in 0..15 and
a make/break flag is `event_code`; it is a byte `c` with row = (c >> 4) & 7,
column = c & 0x0F and flag = c >> 7; so the 256 triples map one-to-one onto
the 256 byte values, and no make code equals a break code. -/
theorem event_code_invertible :
    (∀ (cfg : FifoConfig) (s : news_hle_kbd_device) (row column : Nat),
        key_make cfg s row column = push_key cfg s (event_code false row column)
          ∧ key_break cfg s row column = push_key cfg s (event_code true row column))
      ∧ (∀ (brk : Bool) (row column : Nat), row < 8 → column < 16 →
        event_code brk row column < 256
          ∧ (event_code brk row column >>> 4) &&& 7 = row
          ∧ event_code brk row column &&& 0x0F = column
          ∧ event_code brk row column >>> 7 = (if brk then 1 else 0))
      ∧ (∀ (brk : Bool) (row column : Nat) (brk2 : Bool) (row2 column2 : Nat),
        row < 8 → column < 16 → row2 < 8 → column2 < 16 →
        event_code brk row column = event_code brk2 row2 column2 →
        brk = brk2 ∧ row = row2 ∧ column = column2)
      ∧ (∀ b : Nat, b < 256 →
        ∃ (brk : Bool) (row column : Nat), row < 8 ∧ column < 16 ∧ event_code brk row column = b)
      ∧ (∀ row column row2 column2 : Nat, row < 8 → column < 16 → row2 < 8 → column2 < 16 →
        event_code false row column ≠ event_code true row2 column2) := by
  refine ⟨fun _ _ _ _ => ⟨rfl, rfl⟩, event_code_decode, ?_, ?_, ?_⟩
  · intro brk row column brk2 row2 column2 hr hc hr2 hc2 heq
    obtain ⟨_, h1, h2, h3⟩ := event_code_decode brk row column hr hc
    obtain ⟨_, k1, k2, k3⟩ := event_code_decode brk2 row2 column2 hr2 hc2
    rw [heq] at h1 h2 h3
    refine ⟨?_, by rw [← h1, k1], by rw [← h2, k2]⟩
    rw [k3] at h3
    cases brk <;> cases brk2 <;> simp at h3 <;> rfl
  · intro b hb
    by_cases h : b < 128
    · refine ⟨false, b / 16, b % 16, by omega, by omega, ?_⟩
      rw [event_code_make _ _ (by omega) (by omega)]
      omega
    · refine ⟨true, (b - 128) / 16, b % 16, by omega, by omega, ?_⟩
      rw [event_code_break _ _ (by omega) (by omega)]
      omega
  · intro row column row2 column2 hr hc hr2 hc2
    rw [event_code_make row column hr hc, event_code_break row2 column2 hr2 hc2]
    omega

/-- Witness of C12: the break code of row 2, column 5 is 0xA5 and decodes to
row 2, column 5, flag 1; the byte 0xA5 is the code of an event. -/
theorem event_code_invertible_witness :
    (event_code true 2 5 < 256
        ∧ (event_code true 2 5 >>> 4) &&& 7 = 2
        ∧ event_code true 2 5 &&& 0x0F = 5
        ∧ event_code true 2 5 >>> 7 = (if true then 1 else 0))
      ∧ (∃ (brk : Bool) (row column : Nat),
        row < 8 ∧ column < 16 ∧ event_code brk row column = 0xA5)
      ∧ event_code false 2 5 ≠ event_code true 2 5 :=
  ⟨event_code_invertible.2.1 true 2 5 (by decide) (by decide),
    event_code_invertible.2.2.2.1 0xA5 (by decide),
    event_code_invertible.2.2.2.2 2 5 2 5 (by decide) (by decide) (by decide) (by decide)⟩

/-- C20: `device_reset` of the keyboard (re)starts the periodic key-matrix
scanning at 1200 Hz, a period of exactly 1/1200 second, whatever the state
before the reset (scanning stopped or running at another rate). -/
theorem device_reset_scan_rate (s : news_hle_kbd_device) :
    (device_reset s).m_processing = true
      ∧ (device_reset s).m_scan_hz = 1200
      ∧ scan_period (device_reset s) = 1 / 1200
      ∧ scan_period (device_reset s) * 1200 = 1 := by
  obtain ⟨h1, h2⟩ := device_reset_scan s
  refine ⟨h1, h2, ?_, ?_⟩ <;> simp [scan_period, h2]

/-- C21: the empty sentinel is unambiguous for defined keys. The only matrix
position whose make code is 0x00 is row 0, column 0 (ROW0, bit 0x0001), which
is declared unused; every event of a defined key has a non-zero code, make
codes in 0x01..0x7F and break codes in 0x80..0xFF; hence, when only defined
keys generate events after a reset, `data_r` returns 0 if and only if the FIFO
was empty. -/
theorem empty_sentinel_unambiguous :
    key_defined 0 0 = false
      ∧ (∀ row column : Nat, row < 8 → column < 16 →
        event_code false row column = 0 → row = 0 ∧ column = 0)
      ∧ (∀ row column : Nat, key_defined row column = true →
        0x01 ≤ event_code false row column ∧ event_code false row column ≤ 0x7F
          ∧ 0x80 ≤ event_code true row column ∧ event_code true row column ≤ 0xFF)
      ∧ (∀ (cfg : FifoConfig) (s0 : news_hle_kbd_device) (ops : List KbdOp),
        (∀ op ∈ ops, op.fromDefinedKey = true) →
        ((data_r (run cfg (device_reset s0) ops)).1 = 0
          ↔ (run cfg (device_reset s0) ops).m_fifo = [])) := by
  refine ⟨by decide, ?_, defined_key_codes, ?_⟩
  · intro row column hr hc h0
    rw [event_code_make row column hr hc] at h0
    omega
  · intro cfg s0 ops hops
    apply data_r_zero_iff
    apply run_nonzero cfg ops _ hops
    intro c hc
    rw [device_reset_fifo] at hc
    simp at hc

/-- Witness of C21: the key F1 (row 0, column 1) is defined and has codes 0x01
and 0x81; after its make, its break and one read, the next read does not
return 0 and the FIFO is not empty. -/
theorem empty_sentinel_unambiguous_witness :
    (0x01 ≤ event_code false 0 1 ∧ event_code false 0 1 ≤ 0x7F
        ∧ 0x80 ≤ event_code true 0 1 ∧ event_code true 0 1 ≤ 0xFF)
      ∧ ((data_r (run ⟨8, OverflowPolicy.dropNewest⟩
            (device_reset ⟨[0], true, [], [], false, 0⟩)
            [KbdOp.key_make 0 1, KbdOp.key_break 0 1, KbdOp.data_r])).1 = 0
        ↔ (run ⟨8, OverflowPolicy.dropNewest⟩
            (device_reset ⟨[0], true, [], [], false, 0⟩)
            [KbdOp.key_make 0 1, KbdOp.key_break 0 1, KbdOp.data_r]).m_fifo = []) :=
  ⟨empty_sentinel_unambiguous.2.2.1 0 1 (by decide),
    empty_sentinel_unambiguous.2.2.2 ⟨8, OverflowPolicy.dropNewest⟩
      ⟨[0], true, [], [], false, 0⟩
      [KbdOp.key_make 0 1, KbdOp.key_break 0 1, KbdOp.data_r] (by decide)⟩

end NewsKbd


namespace Aha1542c

/-! ## Helper lemmas -/

theorem aha1542_r_value (s : aha1542c_device) (offset : Nat) :
    (aha1542_r s offset).1 = 0xff := rfl

theorem apply_members (s : aha1542c_device) (op : AhaOp) :
    (op.apply s).members = s.members := by
  cases op <;> rfl

theorem runOps_members (ops : List AhaOp) :
    ∀ s : aha1542c_device, (runOps s ops).members = s.members := by
  induction ops with
  | nil => intro s; rfl
  | cons op ops ih => intro s; exact (ih (op.apply s)).trans (apply_members s op)

/-! ## Theorems -/

/-- C14: the SCSI adapter is a pure stub. `aha1542_r` returns 0xFF for every
offset and after every history of reads, writes and resets; `aha1542_w` (for
every offset and data byte), `aha1542_r` and whole histories leave the class
members untouched and only add diagnostic log lines; `device_reset` changes
nothing at all; so no sequence of writes or resets alters the value of a later
read. -/
theorem adapter_is_stub (s : aha1542c_device) (ops : List AhaOp) (offset data : Nat) :
    (aha1542_r (runOps s ops) offset).1 = 0xFF
      ∧ (aha1542_r (runOps s ops) offset).1 = (aha1542_r s offset).1
      ∧ (aha1542_w s offset data).members = s.members
      ∧ (aha1542_w s offset data).log = s.log ++ [LogLine.write offset data]
      ∧ (aha1542_r s offset).2.members = s.members
      ∧ device_reset s = s
      ∧ (runOps s ops).members = s.members :=
  ⟨rfl, rfl, rfl, rfl, rfl, rfl, runOps_members ops s⟩

/-- C15 as stated fails: on a reset device, before any write, the STATUS
invalid-command bit (0x01, offset 0) and the INTERRUPT-STATUS any-interrupt
bit (0x80, offset 2) already read as set, not as clear, and 0x7F is none of
the command codes of the file. -/
theorem invalid_command_bits_counterexample :
    (aha1542_r (device_reset ⟨[], []⟩) 0).1 &&& STAT_INVCMD = STAT_INVCMD
      ∧ (aha1542_r (device_reset ⟨[], []⟩) 0).1 &&& STAT_INVCMD ≠ 0
      ∧ (aha1542_r (aha1542_r (device_reset ⟨[], []⟩) 0).2 2).1 &&& INTR_ANY = INTR_ANY
      ∧ (aha1542_r (aha1542_r (device_reset ⟨[], []⟩) 0).2 2).1 &&& INTR_ANY ≠ 0
      ∧ 0x7F ∉ command_codes := by
  refine ⟨by decide, by decide, by decide, by decide, by decide⟩

/-- C15, amended: on a reset device, the reads of STATUS (offset 0) and of
INTERRUPT-STATUS (offset 2) return 0xFF both before and after a write of any
code, recognized or not (e.g. 0x7F), to the COMMAND port (offset 1): the
invalid-command bit (0x01) and the any-interrupt bit (0x80) read as set before
the write as well as after it, so the write signals nothing. -/
theorem invalid_command_not_signalled (s : aha1542c_device) (data : Nat) :
    (aha1542_r (device_reset s) 0).1 = 0xFF
      ∧ (aha1542_r (device_reset s) 2).1 = 0xFF
      ∧ (aha1542_r (aha1542_w (device_reset s) 1 data) 0).1 = 0xFF
      ∧ (aha1542_r (aha1542_w (device_reset s) 1 data) 2).1 = 0xFF
      ∧ (aha1542_r (device_reset s) 0).1 &&& STAT_INVCMD = STAT_INVCMD
      ∧ (aha1542_r (aha1542_w (device_reset s) 1 data) 0).1 &&& STAT_INVCMD = STAT_INVCMD
      ∧ (aha1542_r (device_reset s) 2).1 &&& INTR_ANY = INTR_ANY
      ∧ (aha1542_r (aha1542_w (device_reset s) 1 data) 2).1 &&& INTR_ANY = INTR_ANY := by
  refine ⟨rfl, rfl, rfl, rfl, ?_, ?_, ?_, ?_⟩ <;> rw [aha1542_r_value] <;> decide

/-- C16 as stated fails: a read of INTERRUPT-STATUS (offset 2) returns 0xFF,
reporting all five cause bits, and the immediately following read returns 0xFF
again: the any-interrupt bit 0x80 it reported is still set. -/
theorem interrupt_status_not_cleared_counterexample :
    (aha1542_r ⟨[], []⟩ 2).1 = 0xFF
      ∧ (aha1542_r ⟨[], []⟩ 2).1 &&& INTR_ANY ≠ 0
      ∧ (aha1542_r (aha1542_r ⟨[], []⟩ 2).2 2).1 &&& INTR_ANY ≠ 0 := by
  refine ⟨by decide, by decide, by decide⟩

/-- C16, amended: for every device state a read of INTERRUPT-STATUS (offset
2) returns 0xFF and an immediately following read of offset 2 returns 0xFF
again: every cause bit (0x80, 0x08, 0x04, 0x02, 0x01) is reported by both
reads and none is cleared by reading. -/
theorem interrupt_status_read_keeps_bits (s : aha1542c_device) :
    (aha1542_r s 2).1 = 0xFF
      ∧ (aha1542_r (aha1542_r s 2).2 2).1 = 0xFF
      ∧ (∀ bit ∈ [INTR_ANY, INTR_SRCD, INTR_HACC, INTR_MBOA, INTR_MBIF],
        (aha1542_r s 2).1 &&& bit = bit ∧ (aha1542_r (aha1542_r s 2).2 2).1 &&& bit = bit) := by
  refine ⟨rfl, rfl, ?_⟩
  intro bit hbit
  simp only [List.mem_cons, List.mem_singleton, List.not_mem_nil, or_false] at hbit
  rw [aha1542_r_value, aha1542_r_value]
  rcases hbit with h | h | h | h | h <;> subst h <;> decide

/-- Witness of amended C16 for the command-complete bit on a device with
arbitrary members and a log line. -/
theorem interrupt_status_read_keeps_bits_witness :
    (aha1542_r ⟨[1, 2], [LogLine.write 1 0x7F]⟩ 2).1 &&& INTR_HACC = INTR_HACC
      ∧ (aha1542_r (aha1542_r ⟨[1, 2], [LogLine.write 1 0x7F]⟩ 2).2 2).1 &&& INTR_HACC
        = INTR_HACC :=
  (interrupt_status_read_keeps_bits ⟨[1, 2], [LogLine.write 1 0x7F]⟩).2.2 INTR_HACC (by decide)

/-- C17: the register bit masks defined in the code equal the documented
register map: STATUS 0x80 self-test, 0x40 diagnostic failure, 0x20 init
required, 0x10 idle, 0x08 command/data-out full, 0x04 data-in full, 0x01
invalid command; INTERRUPT-STATUS 0x80 any, 0x08 SCSI reset detected, 0x04
command complete, 0x02 mailbox-out empty, 0x01 mailbox-in full; CONTROL 0x80
hard reset, 0x40 soft reset, 0x20 interrupt reset, 0x10 SCSI bus reset. -/
theorem register_masks_match_map :
    code_status_bits = spec_status_bits
      ∧ code_interrupt_bits = spec_interrupt_bits
      ∧ code_control_bits = spec_control_bits
      ∧ [STAT_STST, STAT_DIAGF, STAT_INIT, STAT_IDLE, STAT_CDFULL, STAT_DFULL, STAT_INVCMD]
        = [0x80, 0x40, 0x20, 0x10, 0x08, 0x04, 0x01]
      ∧ [INTR_ANY, INTR_SRCD, INTR_HACC, INTR_MBOA, INTR_MBIF] = [0x80, 0x08, 0x04, 0x02, 0x01]
      ∧ [CTRL_HRST, CTRL_SRST, CTRL_IRST, CTRL_SCRST] = [0x80, 0x40, 0x20, 0x10] := by
  refine ⟨by decide, by decide, by decide, by decide, by decide, by decide⟩

/-- C18: the adapter exposes exactly four consecutive 8-bit I/O ports.
`device_start` installs the two handlers on the port range 0x330..0x333, the
range the DIP switch table gives for switches 2-4 off (the default); the
range holds four addresses, so the handlers see exactly the offsets 0..3:
STATUS/CONTROL, DATA/COMMAND, INTERRUPT STATUS, undefined. -/
theorem adapter_port_range :
    device_start.port_start = 0x330 ∧ device_start.port_end = 0x333
      ∧ device_start.port_end + 1 - device_start.port_start = 4
      ∧ dip_port_range false false false
        = some (device_start.port_start, device_start.port_end)
      ∧ (∀ address : Nat, device_start.port_start ≤ address →
        address ≤ device_start.port_end →
        handler_offset device_start.port_start address < 4)
      ∧ (∀ offset : Nat, offset < 4 → ∃ address : Nat,
        device_start.port_start ≤ address ∧ address ≤ device_start.port_end
          ∧ handler_offset device_start.port_start address = offset)
      ∧ (read_port_name 0 = "STATUS" ∧ write_port_name 0 = "CONTROL")
      ∧ (read_port_name 1 = "DATA" ∧ write_port_name 1 = "COMMAND")
      ∧ read_port_name 2 = "INTERRUPT STATUS"
      ∧ (read_port_name 3 = "(undefined)" ∧ write_port_name 3 = "(undefined)") := by
  refine ⟨rfl, rfl, rfl, rfl, ?_, ?_, ⟨rfl, rfl⟩, ⟨rfl, rfl⟩, rfl, ⟨rfl, rfl⟩⟩
  · intro address h1 h2
    simp only [device_start, handler_offset] at *
    omega
  · intro offset h
    refine ⟨0x330 + offset, ?_, ?_, ?_⟩ <;> simp only [device_start, handler_offset] <;> omega

/-- Witness of C18: the last port, 0x333, is seen as offset 3, and offset 2 is
the offset of a port of the range. -/
theorem adapter_port_range_witness :
    handler_offset device_start.port_start 0x333 < 4
      ∧ (∃ address : Nat, device_start.port_start ≤ address
        ∧ address ≤ device_start.port_end
        ∧ handler_offset device_start.port_start address = 2) :=
  ⟨adapter_port_range.2.2.2.2.1 0x333 (by decide) (by decide),
    adapter_port_range.2.2.2.2.2.1 2 (by decide)⟩

/-- C28: the code departs from its own comment. The RAM entry of the Z80 map
is `map(0x9000, 0xafff).ram()`, commented "2kb RAM chip": the mapped range
holds 0x2000 = 8192 bytes, not 2048; a 2 KB region at 0x9000 would end at
0x97ff, yet the address 0x9800, 2048 bytes above the start, is still inside
the mapped range. -/
theorem z80_ram_range_exceeds_2kb :
    z80_ram_entry = ⟨0x9000, 0xafff, "ram"⟩
      ∧ z80_ram_entry.bytes = 8192
      ∧ z80_ram_entry.bytes ≠ 2048
      ∧ MapEntry.bytes ⟨0x9000, 0x97ff, "ram"⟩ = 2048
      ∧ 0x9800 = z80_ram_entry.first + 2048
      ∧ z80_ram_entry.covers 0x9800 = true
      ∧ z80_ram_entry.covers 0xafff = true := by
  refine ⟨by decide, by decide, by decide, by decide, by decide, by decide, by decide⟩

end Aha1542c

namespace Vindictr

/-! ## Theorems -/

/-- C29: `port1_r` returns the value of the input port "260010" with exactly
bit 4 (0x0010) inverted and every other bit unchanged, a transform that is its
own inverse; since bit 0x0010 of the port is declared active-high and unused,
it reads as 0 and the value returned always has bit 4 set. -/
theorem port1_r_inverts_bit4 (v : Nat) (hv : v < 65536) :
    port1_r v = v ^^^ 0x0010
      ∧ port1_r (port1_r v) = v
      ∧ (∀ i : Nat, i ≠ 4 → (port1_r v).testBit i = v.testBit i)
      ∧ (port1_r v).testBit 4 = !v.testBit 4
      ∧ (PortReads port_260010_bits v →
        v &&& 0x0010 = 0 ∧ port1_r v &&& 0x0010 = 0x0010 ∧ (port1_r v).testBit 4 = true) := by
  have hlt : v ^^^ 0x0010 < 65536 :=
    Nat.xor_lt_two_pow (show v < 2 ^ 16 from hv) (by decide)
  have h1 : port1_r v = v ^^^ 0x0010 := Nat.mod_eq_of_lt hlt
  have hbit : ∀ i : Nat, (0x0010 : Nat).testBit i = decide (4 = i) := fun i =>
    Nat.testBit_two_pow (n := 4) (m := i)
  have h4 : (port1_r v).testBit 4 = !v.testBit 4 := by
    rw [h1, Nat.testBit_xor, hbit]; simp
  refine ⟨h1, ?_, ?_, h4, ?_⟩
  · have h2 : port1_r (v ^^^ 0x0010) = (v ^^^ 0x0010) ^^^ 0x0010 := by
      apply Nat.mod_eq_of_lt
      rw [Nat.xor_assoc, Nat.xor_self, Nat.xor_zero]
      exact hv
    rw [h1, h2, Nat.xor_assoc, Nat.xor_self, Nat.xor_zero]
  · intro i hi
    rw [h1, Nat.testBit_xor, hbit]
    have : decide (4 = i) = false := by simpa using fun h => hi h.symm
    rw [this]; simp
  · intro hp
    have h0 : v &&& 0x0010 = 0 := by
      have := hp.2 ⟨0x0010, false, true⟩ (by decide) rfl
      simpa using this
    have hv4 : v.testBit 4 = false := by
      have h := congrArg (fun x => Nat.testBit x 4) h0
      simpa [Nat.testBit_and, hbit] using h
    refine ⟨h0, ?_, by rw [h4, hv4]; rfl⟩
    rw [h1, Nat.and_xor_distrib_right, h0]
    decide

/-- Witness of C29: the port value with every input at rest, 0xFFEF, is read
as 0xFFFF. -/
theorem port1_r_inverts_bit4_witness :
    port1_r 0xFFEF = 0xFFEF ^^^ 0x0010 ∧ port1_r 0xFFEF &&& 0x0010 = 0x0010 :=
  ⟨(port1_r_inverts_bit4 0xFFEF (by decide)).1,
    ((port1_r_inverts_bit4 0xFFEF (by decide)).2.2.2.2 ⟨by decide, by decide⟩).2.1⟩

end Vindictr

namespace Rungun

/-! ## Helper lemmas -/

theorem shiftRight_and (w m k : Nat) : (w &&& m) >>> k = (w >>> k) &&& (m >>> k) := by
  apply Nat.eq_of_testBit_eq
  intro i
  simp [Nat.testBit_shiftRight, Nat.testBit_and]

theorem shiftRight_xor (w m k : Nat) : (w ^^^ m) >>> k = (w >>> k) ^^^ (m >>> k) := by
  apply Nat.eq_of_testBit_eq
  intro i
  simp [Nat.testBit_shiftRight, Nat.testBit_xor]

theorem and_1f_lt (x : Nat) : x &&& 0x1f < 32 :=
  Nat.and_lt_two_pow x (show 0x1f < 2 ^ 5 by decide)

theorem to_u8_and_1f (x : Nat) : to_u8 (x &&& 0x1f) = x &&& 0x1f :=
  Nat.mod_eq_of_lt (Nat.lt_trans (and_1f_lt x) (by decide))

theorem pen_components_eq (w : Nat) :
    pen_components w = (w &&& 0x1F, (w >>> 5) &&& 0x1F, (w >>> 10) &&& 0x1F) := by
  have hg : (w &&& 0x3e0) >>> 5 = (w >>> 5) &&& 0x1f := by
    rw [shiftRight_and]; rfl
  have hb : (w &&& 0x7e00) >>> 10 = (w >>> 10) &&& 0x1f := by
    rw [shiftRight_and]; rfl
  unfold pen_components
  rw [hg, hb, to_u8_and_1f, to_u8_and_1f, to_u8_and_1f]

theorem xor_and_disjoint (x m c : Nat) (h : m &&& c = 0) : (x ^^^ m) &&& c = x &&& c := by
  rw [Nat.and_xor_distrib_right, h, Nat.xor_zero]

theorem pal_ram_addr_eq (s : rungun_state) (offset : Nat) :
    pal_ram_addr s offset = offset + s.m_video_mux_bank * 0x400 := by
  unfold pal_ram_addr
  omega

theorem palette_write_some (s : rungun_state) (offset data mem_mask old : Nat)
    (hold : s.m_pal_ram[to_u32 (pal_ram_addr s offset)]? = some old) :
    palette_write s offset data mem_mask = some { s with
      m_pal_ram := s.m_pal_ram.set (to_u32 (pal_ram_addr s offset))
        (COMBINE_DATA old data mem_mask)
      effects := s.effects ++ [Effect.set_pen_color (if s.m_video_mux_bank = 0 then 0 else 1)
        offset (pen_components (COMBINE_DATA old data mem_mask)).1
        (pen_components (COMBINE_DATA old data mem_mask)).2.1
        (pen_components (COMBINE_DATA old data mem_mask)).2.2] } := by
  unfold palette_write
  simp only [hold]

theorem rombase_lt (data : Nat) : (data &&& 0xf0) >>> 4 < 16 := by
  have h : data &&& 0xf0 ≤ 0xf0 := Nat.and_le_right
  rw [Nat.shiftRight_eq_div_pow]
  omega

theorem sysregs_w_rombase (s : rungun_state) (data mem_mask : Nat) :
    (sysregs_w s (0x0c / 2) data mem_mask).m_roz_rombase = (data &&& 0xf0) >>> 4 := by
  simp [sysregs_w]

theorem field_bit_cases (s : rungun_state) (frame_number : Nat) :
    field_bit s frame_number = 0 ∨ field_bit s frame_number = 1 := by
  unfold field_bit to_u8
  rw [Nat.and_one_is_mod]
  split
  · right; rfl
  · omega

theorem field_bit_eq (s : rungun_state) (frame_number : Nat) :
    field_bit s frame_number = if s.m_single_screen_mode = true then 1 else frame_number &&& 1 := by
  unfold field_bit to_u8
  rw [Nat.and_one_is_mod]
  cases s.m_single_screen_mode
  · simp; omega
  · simp

theorem field_merge_lt (sys fb : Nat) (hfb : fb = 0 ∨ fb = 1) :
    (sys &&& 0xfdff) ||| (fb <<< 9) < 65536 := by
  apply Nat.or_lt_two_pow (n := 16)
  · exact Nat.and_lt_two_pow sys (by decide)
  · rcases hfb with h | h <;> rw [h] <;> decide

theorem field_merge_other (sys fb : Nat) (hfb : fb = 0 ∨ fb = 1) (i : Nat) (hi : i < 16)
    (h9 : i ≠ 9) : ((sys &&& 0xfdff) ||| (fb <<< 9)).testBit i = sys.testBit i := by
  rw [Nat.testBit_or, Nat.testBit_and]
  rcases hfb with h | h <;> rw [h] <;> interval_cases i <;>
    first
      | exact absurd rfl h9
      | (generalize sys.testBit _ = b; cases b <;> decide)

theorem field_merge_nine (sys fb : Nat) (hfb : fb = 0 ∨ fb = 1) :
    ((sys &&& 0xfdff) ||| (fb <<< 9)).testBit 9 = decide (fb = 1) := by
  rw [Nat.testBit_or, Nat.testBit_and]
  rcases hfb with h | h <;> rw [h] <;>
    (generalize sys.testBit _ = b; cases b <;> decide)

theorem sysregs_r_system (s : rungun_state) (ports : Ports) (frame_number mem_mask : Nat) :
    sysregs_r s ports frame_number (0x04 / 2) mem_mask
      = (ports.SYSTEM &&& 0xfdff) ||| (field_bit s frame_number <<< 9) := by
  have h : sysregs_r s ports frame_number (0x04 / 2) mem_mask
      = to_u16 ((ports.SYSTEM &&& 0xfdff) ||| (field_bit s frame_number <<< 9)) := by
    simp [sysregs_r]
  rw [h]
  exact Nat.mod_eq_of_lt (field_merge_lt _ _ (field_bit_cases s frame_number))

theorem beq_eq_decide_eq (a b : Nat) : (a == b) = decide (a = b) := by
  cases h : decide (a = b) <;> simp_all

theorem sysregs_w_mode (s : rungun_state) (offset data mem_mask : Nat) :
    (sysregs_w s offset data mem_mask).m_single_screen_mode
      = if offset = 0x08 / 2 ∧ ACCESSING_BITS_8_15 mem_mask = true
        then decide (data &&& 0x1000 = 0x1000) else s.m_single_screen_mode := by
  unfold sysregs_w
  by_cases h8 : offset = 0x08 / 2
  · by_cases hlo : ACCESSING_BITS_0_7 mem_mask = true <;>
      by_cases hhi : ACCESSING_BITS_8_15 mem_mask = true <;>
      simp [h8, hlo, hhi, beq_eq_decide_eq]
  · by_cases hc : offset = 0x0c / 2
    · simp [hc]
    · simp [h8, hc]

theorem runWrites_mode (ws : List SysregWrite) :
    ∀ s : rungun_state, (runWrites s ws).m_single_screen_mode
      = match lastHighWrite08 ws with
        | some d => decide (d &&& 0x1000 = 0x1000)
        | none => s.m_single_screen_mode := by
  induction ws with
  | nil => intro s; rfl
  | cons w ws ih =>
    intro s
    have hcons : lastHighWrite08 (w :: ws)
        = (match lastHighWrite08 ws with
          | some d => some d
          | none => if w.offset = 0x08 / 2 ∧ ACCESSING_BITS_8_15 w.mem_mask = true
            then some w.data else none) := rfl
    show (runWrites (sysregs_w s w.offset w.data w.mem_mask) ws).m_single_screen_mode = _
    rw [ih, hcons]
    cases hl : lastHighWrite08 ws with
    | some d => rfl
    | none =>
      show (sysregs_w s w.offset w.data w.mem_mask).m_single_screen_mode = _
      rw [sysregs_w_mode]
      by_cases hc : w.offset = 0x08 / 2 ∧ ACCESSING_BITS_8_15 w.mem_mask = true
      · rw [if_pos hc, if_pos hc]
      · rw [if_neg hc, if_neg hc]

theorem nmi_gen_effects (s : rungun_state) (state : Nat) :
    (k054539_nmi_gen s state).effects
      = if s.m_sound_ctrl &&& 0x10 ≠ 0 ∧ s.m_sound_nmi_clk = 0 ∧ state ≠ 0
        then s.effects ++ [Effect.soundcpu_nmi_line true] else s.effects := by
  unfold k054539_nmi_gen
  by_cases h1 : s.m_sound_ctrl &&& 0x10 = 0 <;> by_cases h2 : s.m_sound_nmi_clk = 0 <;>
    by_cases h3 : state = 0 <;> simp [h1, h2, h3]

theorem nmi_gen_asserts_high (s : rungun_state) (state : Nat) (h : s.m_sound_nmi_clk ≠ 0) :
    nmi_asserts (k054539_nmi_gen s state).effects = nmi_asserts s.effects := by
  rw [nmi_gen_effects, if_neg (fun hc => h hc.2.1)]

theorem nmi_gen_asserts_le (s : rungun_state) (state : Nat) :
    nmi_asserts (k054539_nmi_gen s state).effects ≤ nmi_asserts s.effects + 1 := by
  rw [nmi_gen_effects]
  split
  · simp [nmi_asserts, List.count_append]
  · omega

theorem ctrl_w_asserts (s : rungun_state) (data : Nat) :
    nmi_asserts (sound_ctrl_w s data).effects = nmi_asserts s.effects := by
  unfold sound_ctrl_w nmi_asserts
  by_cases h : data &&& 0x10 = 0 <;> simp [h, List.count_append, List.count_cons]

theorem held_high_no_assert (ops : List SoundOp) :
    ∀ s : rungun_state, s.m_sound_nmi_clk ≠ 0 → (∀ op ∈ ops, op.lineHigh = true) →
      nmi_asserts (runSound s ops).effects = nmi_asserts s.effects := by
  induction ops with
  | nil => intro s _ _; rfl
  | cons op ops ih =>
    intro s hs hops
    have hrest : ∀ o ∈ ops, o.lineHigh = true := fun o ho => hops o (List.mem_cons_of_mem _ ho)
    have hop := hops op (List.mem_cons_self _ _)
    cases op with
    | nmi_gen state =>
      have hst : state ≠ 0 := by simpa [SoundOp.lineHigh] using hop
      show nmi_asserts (runSound (k054539_nmi_gen s state) ops).effects = _
      rw [ih (k054539_nmi_gen s state) hst hrest, nmi_gen_asserts_high s state hs]
    | ctrl_w data =>
      show nmi_asserts (runSound (sound_ctrl_w s data) ops).effects = _
      rw [ih (sound_ctrl_w s data) hs hrest, ctrl_w_asserts]

theorem held_high_at_most_one (ops : List SoundOp) :
    ∀ s : rungun_state, (∀ op ∈ ops, op.lineHigh = true) →
      nmi_asserts (runSound s ops).effects ≤ nmi_asserts s.effects + 1 := by
  induction ops with
  | nil => intro s _; exact Nat.le_succ _
  | cons op ops ih =>
    intro s hops
    have hrest : ∀ o ∈ ops, o.lineHigh = true := fun o ho => hops o (List.mem_cons_of_mem _ ho)
    have hop := hops op (List.mem_cons_self _ _)
    cases op with
    | nmi_gen state =>
      have hst : state ≠ 0 := by simpa [SoundOp.lineHigh] using hop
      show nmi_asserts (runSound (k054539_nmi_gen s state) ops).effects ≤ _
      rw [held_high_no_assert ops (k054539_nmi_gen s state) hst hrest]
      exact nmi_gen_asserts_le s state
    | ctrl_w data =>
      show nmi_asserts (runSound (sound_ctrl_w s data) ops).effects ≤ _
      have h := ih (sound_ctrl_w s data) hrest
      rw [ctrl_w_asserts] at h
      exact h

/-! ## Theorems -/

/-- C22: palette colour extraction. For every palette word `w` the components
`palette_write` computes, r = w & 0x1F, g = (w & 0x3E0) >> 5 and
b = (w & 0x7E00) >> 10, are the three xBGR-555 fields w & 0x1F, (w >> 5) &
0x1F and (w >> 10) & 0x1F; each is in 0..31, the blue value does not depend on
bit 9, and bit 15 of `w` is ignored. They are what `palette_write` hands to
the pen of the current palette. -/
theorem palette_components_xbgr555 (w : Nat) :
    pen_components w = (w &&& 0x1F, (w >>> 5) &&& 0x1F, (w >>> 10) &&& 0x1F)
      ∧ ((pen_components w).1 < 32 ∧ (pen_components w).2.1 < 32
        ∧ (pen_components w).2.2 < 32)
      ∧ (pen_components (w ^^^ 0x200)).2.2 = (pen_components w).2.2
      ∧ pen_components (w ^^^ 0x8000) = pen_components w
      ∧ (∀ (s : rungun_state) (offset data mem_mask old : Nat),
        s.m_pal_ram[to_u32 (pal_ram_addr s offset)]? = some old →
        COMBINE_DATA old data mem_mask = w →
        ∃ t : rungun_state, palette_write s offset data mem_mask = some t
          ∧ t.effects = s.effects ++
            [Effect.set_pen_color (if s.m_video_mux_bank = 0 then 0 else 1) offset
              (w &&& 0x1F) ((w >>> 5) &&& 0x1F) ((w >>> 10) &&& 0x1F)]) := by
  refine ⟨pen_components_eq w, ?_, ?_, ?_, ?_⟩
  · rw [pen_components_eq]
    exact ⟨and_1f_lt _, and_1f_lt _, and_1f_lt _⟩
  · have hb : ((w ^^^ 0x200) >>> 10) &&& 0x1F = (w >>> 10) &&& 0x1F := by
      rw [shiftRight_xor]
      show ((w >>> 10) ^^^ 0) &&& 0x1F = (w >>> 10) &&& 0x1F
      rw [Nat.xor_zero]
    rw [pen_components_eq, pen_components_eq]
    exact hb
  · rw [pen_components_eq, pen_components_eq, shiftRight_xor, shiftRight_xor,
      xor_and_disjoint w 0x8000 0x1F (by decide),
      xor_and_disjoint (w >>> 5) (0x8000 >>> 5) 0x1F (by decide),
      xor_and_disjoint (w >>> 10) (0x8000 >>> 10) 0x1F (by decide)]
  · intro s offset data mem_mask old hold hw
    refine ⟨_, palette_write_some s offset data mem_mask old hold, ?_⟩
    simp only [hw, pen_components_eq]

/-- Witness of C22: the word 0x7FFF written in full over 0 at offset 1 of
bank 0 sets pen 1 of the first palette to the components 31, 31, 31. -/
theorem palette_components_xbgr555_witness :
    ∃ t : rungun_state,
      palette_write ⟨[], [0, 0, 0], 0, false, false, 0, 0, 0, 0, []⟩ 1 0x7FFF 0xffff = some t
        ∧ t.effects = [] ++
          [Effect.set_pen_color (if (0 : Nat) = 0 then 0 else 1) 1
            (0x7FFF &&& 0x1F) ((0x7FFF >>> 5) &&& 0x1F) ((0x7FFF >>> 10) &&& 0x1F)] :=
  (palette_components_xbgr555 0x7FFF).2.2.2.2
    ⟨[], [0, 0, 0], 0, false, false, 0, 0, 0, 0, []⟩ 1 0x7FFF 0xffff 0 (by decide) (by decide)

/-- C23: palette RAM read-after-write. The palette RAM has 0x1000 words and
the window 0x400 word offsets. For every offset < 0x400, video mux bank in
{0, 1}, data and mem_mask, `palette_write(offset, data, mem_mask)` followed by
`palette_read(offset)` with the bank unchanged returns
(old & ~mem_mask) | (data & mem_mask), where the word accessed is index
offset + bank*0x400, and no other palette RAM word is modified, in particular
not the word of the other bank at the same offset. -/
theorem palette_read_after_write (s : rungun_state) (offset data mem_mask : Nat)
    (hlen : s.m_pal_ram.length = pal_ram_words) (hoff : offset < palette_window_words)
    (hbank : s.m_video_mux_bank < 2) :
    pal_ram_words = 0x1000 ∧ palette_window_words = 0x400
      ∧ pal_ram_addr s offset = offset + s.m_video_mux_bank * 0x400
      ∧ ∃ (old : Nat) (t : rungun_state),
        s.m_pal_ram[offset + s.m_video_mux_bank * 0x400]? = some old
          ∧ palette_write s offset data mem_mask = some t
          ∧ t.m_video_mux_bank = s.m_video_mux_bank
          ∧ palette_read t offset
            = some ((old &&& (0xffff ^^^ mem_mask)) ||| (data &&& mem_mask))
          ∧ (∀ i : Nat, i ≠ offset + s.m_video_mux_bank * 0x400 →
            t.m_pal_ram[i]? = s.m_pal_ram[i]?)
          ∧ t.m_pal_ram[offset + (1 - s.m_video_mux_bank) * 0x400]?
            = s.m_pal_ram[offset + (1 - s.m_video_mux_bank) * 0x400]?
          ∧ t.m_pal_ram.length = pal_ram_words := by
  have haddr := pal_ram_addr_eq s offset
  have hwin : palette_window_words = 0x400 := by decide
  have hwords : pal_ram_words = 0x1000 := by decide
  rw [hwin] at hoff
  have hlt : offset + s.m_video_mux_bank * 0x400 < s.m_pal_ram.length := by
    rw [hlen, hwords]; omega
  have hu32 : to_u32 (pal_ram_addr s offset) = offset + s.m_video_mux_bank * 0x400 := by
    rw [haddr]
    apply Nat.mod_eq_of_lt
    omega
  have hold : s.m_pal_ram[to_u32 (pal_ram_addr s offset)]?
      = some s.m_pal_ram[offset + s.m_video_mux_bank * 0x400] := by
    rw [hu32]
    exact List.getElem?_eq_getElem hlt
  have hw := palette_write_some s offset data mem_mask _ hold
  refine ⟨hwords, hwin, haddr, s.m_pal_ram[offset + s.m_video_mux_bank * 0x400], _,
    List.getElem?_eq_getElem hlt, hw, rfl, ?_, ?_, ?_, ?_⟩
  · show (s.m_pal_ram.set _ _)[pal_ram_addr s offset]? = _
    rw [hu32, haddr, List.getElem?_set_self hlt]
    rfl
  · intro i hi
    show (s.m_pal_ram.set _ _)[i]? = _
    rw [hu32]
    exact List.getElem?_set_ne (fun h => hi h.symm)
  · show (s.m_pal_ram.set _ _)[_]? = _
    rw [hu32]
    apply List.getElem?_set_ne
    omega
  · show (s.m_pal_ram.set _ _).length = _
    rw [List.length_set, hlen]

/-- Witness of C23: a cleared palette RAM, bank 1, a low-byte write of 0x1234
at offset 5. -/
theorem palette_read_after_write_witness :
    pal_ram_addr ⟨[], List.replicate 0x1000 0, 1, false, false, 0, 0, 0, 0, []⟩ 5
      = 5 + 1 * 0x400 :=
  (palette_read_after_write ⟨[], List.replicate 0x1000 0, 1, false, false, 0, 0, 0, 0, []⟩
    5 0x1234 0x00ff (List.length_replicate _ _) (by decide) (by decide)).2.2.1

/-- C24: the '936 ROM readback stays in bounds. The window has 0x20000
offsets. A write of any data to sysreg 0x0c sets `m_roz_rombase` to
(data & 0xF0) >> 4, always in 0..15; hence for every window offset
`k53936_rom_r` then reads the ROM address offset + rombase*0x20000, which is
below 0x200000 and so inside the 0x400000 bytes of the region gfx1. -/
theorem roz_rom_readback_in_bounds (s : rungun_state) (data mem_mask offset : Nat)
    (rom : Nat → Nat) (hoff : offset < roz_window_offsets) :
    roz_window_offsets = 0x20000
      ∧ (sysregs_w s (0x0c / 2) data mem_mask).m_roz_rombase = (data &&& 0xF0) >>> 4
      ∧ (sysregs_w s (0x0c / 2) data mem_mask).m_roz_rombase < 16
      ∧ roz_rom_addr (sysregs_w s (0x0c / 2) data mem_mask) offset
        = offset + ((data &&& 0xF0) >>> 4) * 0x20000
      ∧ roz_rom_addr (sysregs_w s (0x0c / 2) data mem_mask) offset < 0x200000
      ∧ roz_rom_addr (sysregs_w s (0x0c / 2) data mem_mask) offset < gfx1_region_size
      ∧ k53936_rom_r (sysregs_w s (0x0c / 2) data mem_mask) rom offset
        = some (rom (offset + ((data &&& 0xF0) >>> 4) * 0x20000)) := by
  have hwin : roz_window_offsets = 0x20000 := by decide
  rw [hwin] at hoff
  have hb := rombase_lt data
  have hr := sysregs_w_rombase s data mem_mask
  have haddr : roz_rom_addr (sysregs_w s (0x0c / 2) data mem_mask) offset
      = offset + ((data &&& 0xF0) >>> 4) * 0x20000 := by
    unfold roz_rom_addr
    rw [hr]
    apply Nat.mod_eq_of_lt
    omega
  have hlt : offset + ((data &&& 0xF0) >>> 4) * 0x20000 < 0x200000 := by omega
  have hg : gfx1_region_size = 0x400000 := rfl
  refine ⟨hwin, hr, by rw [hr]; exact hb, haddr, by rw [haddr]; exact hlt,
    by rw [haddr, hg]; omega, ?_⟩
  unfold k53936_rom_r
  rw [haddr, hg, if_pos (by omega)]

/-- Witness of C24: the last offset of the window with the highest ROM base
reads the last byte below 0x200000. -/
theorem roz_rom_readback_in_bounds_witness :
    roz_rom_addr
        (sysregs_w ⟨List.replicate 16 0, [], 0, false, false, 0, 0, 0, 0, []⟩ (0x0c / 2) 0xF0
          0xffff) 0x1FFFF < 0x200000 :=
  (roz_rom_readback_in_bounds ⟨List.replicate 16 0, [], 0, false, false, 0, 0, 0, 0, []⟩
    0xF0 0xffff 0x1FFFF (fun a => a % 256) (by decide)).2.2.2.2.1

/-- C25: sound ROM banking stays in bounds. For every byte written,
`sound_ctrl_w` selects the bank entry data & 0x07, one of the 8 entries
`machine_start` configures; every entry n in 0..7 maps the 0x4000-byte window
starting at soundcpu offset 0x10000 + n*0x4000, which ends at or before
0x30000, the size of the region soundcpu. -/
theorem sound_bank_in_bounds (s : rungun_state) (data : Nat) :
    (sound_ctrl_w s data).effects
        = s.effects ++ (Effect.bank2_set_entry (data &&& 0x07)
          :: (if data &&& 0x10 = 0 then [Effect.soundcpu_nmi_line false] else []))
      ∧ data &&& 0x07 < bank2_entry_count
      ∧ bank2_window_bytes = 0x4000 ∧ soundcpu_region_size = 0x30000
      ∧ (∀ n : Nat, n < bank2_entry_count →
        bank2_entry_base n = 0x10000 + n * 0x4000
          ∧ bank2_entry_base n + bank2_window_bytes ≤ soundcpu_region_size) := by
  refine ⟨?_, Nat.and_lt_two_pow data (show 0x07 < 2 ^ 3 by decide), rfl, rfl, ?_⟩
  · unfold sound_ctrl_w
    by_cases h : data &&& 0x10 = 0 <;> simp [h]
  · intro n hn
    have h8 : bank2_entry_count = 8 := rfl
    have hw : bank2_window_bytes = 0x4000 := rfl
    have hs : soundcpu_region_size = 0x30000 := rfl
    refine ⟨rfl, ?_⟩
    unfold bank2_entry_base
    rw [hw, hs]
    omega

/-- Witness of C25: the last entry, 7, ends exactly at the end of the
region. -/
theorem sound_bank_in_bounds_witness :
    bank2_entry_base 7 = 0x10000 + 7 * 0x4000
      ∧ bank2_entry_base 7 + bank2_window_bytes ≤ soundcpu_region_size :=
  (sound_bank_in_bounds ⟨[], [], 0, false, false, 0, 0, 0, 0, []⟩ 0xFF).2.2.2.2 7 (by decide)

/-- C26: screen-select field bit. A read of sysreg offset 0x04/2 returns the
SYSTEM port value with bit 9 replaced by the field bit and every other bit of
the 16 unchanged; the field bit is frame_number & 1 when single-screen mode is
off and 1 when it is on; a high-byte write to sysreg 0x08 sets single-screen
mode to bit 12 of its data, no other write changes it, so after a sequence of
writes the mode is bit 12 of the data of the last high-byte write to sysreg
0x08. -/
theorem screen_select_field_bit (s : rungun_state) (ports : Ports)
    (frame_number mem_mask : Nat) (ws : List SysregWrite) :
    sysregs_r s ports frame_number (0x04 / 2) mem_mask
        = (ports.SYSTEM &&& 0xfdff) ||| (field_bit s frame_number <<< 9)
      ∧ field_bit s frame_number
        = (if s.m_single_screen_mode = true then 1 else frame_number &&& 1)
      ∧ (∀ i : Nat, i < 16 → i ≠ 9 →
        (sysregs_r s ports frame_number (0x04 / 2) mem_mask).testBit i
          = ports.SYSTEM.testBit i)
      ∧ (sysregs_r s ports frame_number (0x04 / 2) mem_mask).testBit 9
        = decide (field_bit s frame_number = 1)
      ∧ (∀ offset data mask : Nat, (sysregs_w s offset data mask).m_single_screen_mode
        = if offset = 0x08 / 2 ∧ ACCESSING_BITS_8_15 mask = true
          then decide (data &&& 0x1000 = 0x1000) else s.m_single_screen_mode)
      ∧ (runWrites s ws).m_single_screen_mode
        = (match lastHighWrite08 ws with
          | some d => decide (d &&& 0x1000 = 0x1000)
          | none => s.m_single_screen_mode) := by
  have hfb := field_bit_cases s frame_number
  refine ⟨sysregs_r_system s ports frame_number mem_mask, field_bit_eq s frame_number,
    ?_, ?_, sysregs_w_mode s, runWrites_mode ws s⟩
  · intro i hi h9
    rw [sysregs_r_system]
    exact field_merge_other _ _ hfb i hi h9
  · rw [sysregs_r_system]
    exact field_merge_nine _ _ hfb

/-- Witness of C26: with single-screen mode off, an odd frame and SYSTEM
reading 0x0DFF, bit 8 of the value read is the SYSTEM bit 8. -/
theorem screen_select_field_bit_witness :
    (sysregs_r ⟨List.replicate 16 0, [], 0, false, false, 0, 0, 0, 0, []⟩
        ⟨0, 0, 0, 0, 0x0DFF, 0⟩ 7 (0x04 / 2) 0xffff).testBit 8
      = (0x0DFF : Nat).testBit 8 :=
  (screen_select_field_bit ⟨List.replicate 16 0, [], 0, false, false, 0, 0, 0, 0, []⟩
    ⟨0, 0, 0, 0, 0x0DFF, 0⟩ 7 0xffff []).2.2.1 8 (by decide) (by decide)

/-- C27: the sound NMI is rising-edge triggered and gated.
`k054539_nmi_gen(state)` asserts the NMI of the sound CPU if and only if bit 4
(0x10) of `m_sound_ctrl` is set, the recorded line state is 0 and the new
state is non-zero; in every case it records the new state in
`m_sound_nmi_clk`; so while the line is held high, whatever is written to the
sound control register in between, the NMI is asserted at most once. -/
theorem sound_nmi_rising_edge (s : rungun_state) (state : Nat) (ops : List SoundOp) :
    (k054539_nmi_gen s state).effects
        = (if s.m_sound_ctrl &&& 0x10 ≠ 0 ∧ s.m_sound_nmi_clk = 0 ∧ state ≠ 0
          then s.effects ++ [Effect.soundcpu_nmi_line true] else s.effects)
      ∧ (k054539_nmi_gen s state).m_sound_nmi_clk = state
      ∧ (k054539_nmi_gen s state).m_sound_ctrl = s.m_sound_ctrl
      ∧ ((∀ op ∈ ops, op.lineHigh = true) →
        nmi_asserts (runSound s ops).effects ≤ nmi_asserts s.effects + 1)
      ∧ (s.m_sound_nmi_clk ≠ 0 → (∀ op ∈ ops, op.lineHigh = true) →
        nmi_asserts (runSound s ops).effects = nmi_asserts s.effects) :=
  ⟨nmi_gen_effects s state, rfl, rfl, held_high_at_most_one ops s, held_high_no_assert ops s⟩

/-- Witness of C27: with the NMI enabled and the line low, three calls with
the line high and a control write in between assert the NMI once. -/
theorem sound_nmi_rising_edge_witness :
    nmi_asserts (runSound ⟨[], [], 0, false, false, 0, 0x10, 0, 0, []⟩
        [SoundOp.nmi_gen 1, SoundOp.ctrl_w 0x13, SoundOp.nmi_gen 1, SoundOp.nmi_gen 1]).effects
      ≤ nmi_asserts ([] : List Effect) + 1 :=
  (sound_nmi_rising_edge ⟨[], [], 0, false, false, 0, 0x10, 0, 0, []⟩ 1
    [SoundOp.nmi_gen 1, SoundOp.ctrl_w 0x13, SoundOp.nmi_gen 1, SoundOp.nmi_gen 1]).2.2.2.1
    (by decide)

end Rungun
